import Mathlib

/-! # Pivot expression evaluator: operators, truthiness and comparison

A shallow embedding of `pkg/pivot/operator.go`: the nine binary operators
(`LogicXor`, `LogicAnd`, `LogicOr`, `Gt`, `Lt`, `Ne`, `Eq`, `Ge`, `Le`), the
truthiness function `ConvertToBool` and the comparison algorithm `compare`.

* A Go `panic` is the `error` side of `Except Panic _`.
* The engine library (`CompareDatum`, `ConvertTo`) is not part of the
  repository; `compare` and the relational operators take it as a parameter.
* Go `int` results are 64-bit two's complement integers (`GoInt`).
-/

namespace Pivot

/-! ## Data model -/

/-- Equality of results is decidable, so that closed instances evaluate. -/
instance instDecidableEqExcept {ε α : Type} [DecidableEq ε] [DecidableEq α] :
    DecidableEq (Except ε α)
  | .ok a, .ok b =>
    if h : a = b then isTrue (by rw [h]) else isFalse (fun e => h (Except.ok.inj e))
  | .error a, .error b =>
    if h : a = b then isTrue (by rw [h]) else isFalse (fun e => h (Except.error.inj e))
  | .ok _, .error _ => isFalse (fun e => Except.noConfusion e)
  | .error _, .ok _ => isFalse (fun e => Except.noConfusion e)

/-- Kind tags of a datum, in the numbering of the engine library. -/
inductive Kind
  | KindNull | KindInt64 | KindUint64 | KindFloat32 | KindFloat64 | KindString
  | KindBytes | KindBinaryLiteral | KindMysqlDecimal | KindMysqlDuration
  | KindMysqlEnum | KindMysqlBit | KindMysqlSet | KindMysqlTime | KindInterface
  | KindMinNotNull | KindMaxValue | KindRaw | KindMysqlJSON
  deriving DecidableEq, Repr

/-- The byte printed by `%d` for a kind. -/
def Kind.code : Kind → Nat
  | .KindNull => 0 | .KindInt64 => 1 | .KindUint64 => 2 | .KindFloat32 => 3
  | .KindFloat64 => 4 | .KindString => 5 | .KindBytes => 6
  | .KindBinaryLiteral => 7 | .KindMysqlDecimal => 8 | .KindMysqlDuration => 9
  | .KindMysqlEnum => 10 | .KindMysqlBit => 11 | .KindMysqlSet => 12
  | .KindMysqlTime => 13 | .KindInterface => 14 | .KindMinNotNull => 15
  | .KindMaxValue => 16 | .KindRaw => 17 | .KindMysqlJSON => 18

/-- The kinds that neither `ConvertToBool` nor `compare` names in a `case`. -/
inductive OtherKind
  | Bytes | BinaryLiteral | MysqlDuration | MysqlEnum | MysqlBit | MysqlSet
  | Interface | MinNotNull | MaxValue | Raw | MysqlJSON
  deriving DecidableEq, Repr

/-- Kind tag of one of the remaining kinds. -/
def OtherKind.toKind : OtherKind → Kind
  | .Bytes => .KindBytes | .BinaryLiteral => .KindBinaryLiteral
  | .MysqlDuration => .KindMysqlDuration | .MysqlEnum => .KindMysqlEnum
  | .MysqlBit => .KindMysqlBit | .MysqlSet => .KindMysqlSet
  | .Interface => .KindInterface | .MinNotNull => .KindMinNotNull
  | .MaxValue => .KindMaxValue | .Raw => .KindRaw | .MysqlJSON => .KindMysqlJSON

/-- An IEEE-754 value as Go sees it: not-a-number, an infinity with its sign,
or the finite number `m / 2 ^ k` (every finite float is such a dyadic number;
both zeros have `m = 0`). A `float32` widens to `float64` without changing its
value, so one type serves both widths. -/
inductive GoFloat
  | nan
  | inf (neg : Bool)
  | fin (m : Int) (k : Nat)
  deriving DecidableEq, Repr

/-- Go `math.Abs`: clears the sign; `Abs(NaN) = NaN`, `Abs(±Inf) = +Inf`. -/
def GoFloat.abs : GoFloat → GoFloat
  | .nan => .nan
  | .inf _ => .inf false
  | .fin m k => .fin (if m < 0 then -m else m) k

/-- Go `x >= y` on floats: false as soon as one side is NaN; two finite
numbers are compared after cross-multiplying by the powers of two. -/
def GoFloat.ge : GoFloat → GoFloat → Bool
  | .nan, _ => false
  | _, .nan => false
  | .inf false, _ => true
  | .inf true, .inf true => true
  | .inf true, _ => false
  | .fin _ _, .inf false => false
  | .fin _ _, .inf true => true
  | .fin m k, .fin n j => decide (n * 2 ^ k ≤ m * 2 ^ j)

/-- The float constant `1`. -/
def GoFloat.one : GoFloat := .fin 1 0

/-- Modelled from the spec: the engine library's fixed-point decimal, which
is not part of the repository. Its value is `± coeff / 10 ^ scale`. -/
structure MyDecimal where
  negative : Bool
  coeff : Nat
  scale : Nat
  deriving DecidableEq, Repr

/-- The number a decimal denotes. -/
def MyDecimal.toRat (d : MyDecimal) : ℚ :=
  (if d.negative then -1 else 1) * (d.coeff : ℚ) / (10 : ℚ) ^ d.scale

/-- Modelled from the spec: `MyDecimal.IsZero` of the engine library, true
when every digit of the decimal is zero. -/
def MyDecimal.IsZero (d : MyDecimal) : Bool :=
  d.coeff == 0

/-- Which of the three temporal SQL types a time value has. -/
inductive TimeTp
  | Date | Datetime | Timestamp
  deriving DecidableEq, Repr

/-- Payload of a `KindMysqlTime` datum. This file never looks inside it; only
the engine library does. -/
structure MysqlTime where
  tp : TimeTp
  year : Nat
  month : Nat
  day : Nat
  hour : Nat
  minute : Nat
  second : Nat
  microsecond : Nat
  deriving DecidableEq, Repr

/-- A runtime SQL value (`parser_driver.ValueExpr`, i.e. a datum): the kind
tag together with the payload of that kind. A Go string is held as the
sequence of its decoded runes. The payload of the remaining kinds is never
read by this package and is left out. -/
inductive Value
  | null
  | int64 (i : Int)
  | uint64 (u : Nat)
  | float32 (f : GoFloat)
  | float64 (f : GoFloat)
  | string (s : String)
  | decimal (d : MyDecimal)
  | time (t : MysqlTime)
  | other (k : OtherKind)
  deriving DecidableEq

/-- `a.Kind()`. -/
def Value.Kind : Value → Kind
  | .null => .KindNull
  | .int64 _ => .KindInt64
  | .uint64 _ => .KindUint64
  | .float32 _ => .KindFloat32
  | .float64 _ => .KindFloat64
  | .string _ => .KindString
  | .decimal _ => .KindMysqlDecimal
  | .time _ => .KindMysqlTime
  | .other k => k.toKind

/-- Modelled from the spec: `SetValue` of the engine library applied to a Go
`bool`; the datum becomes the boolean-kind value `Int64 1` or `Int64 0`. -/
def SetValue (b : Bool) : Value :=
  .int64 (if b then 1 else 0)

/-- The value carried by a Go `panic`. -/
inductive Panic
  /-- Carries the kind of "unreachable kind: %d". -/
  | unreachableKind (k : Nat)
  /-- Carries the operands and error of "compare %v and %v err: %v". -/
  | compareErr (a b : Value) (err : String)
  deriving DecidableEq

/-! ## Go `int` -/

/-- Wrap an integer into the two's complement 64-bit range. -/
def wrap64 (x : Int) : Int :=
  (x + 9223372036854775808) % 18446744073709551616 - 9223372036854775808

/-- A Go `int` (64 bits). -/
abbrev GoInt := { i : Int // -9223372036854775808 ≤ i ∧ i ≤ 9223372036854775807 }

/-- An in-range literal as a Go `int`. -/
def GoInt.ofInt (x : Int) : GoInt :=
  ⟨wrap64 x, by unfold wrap64; omega⟩

/-- Go unary minus on `int`, which wraps on overflow. -/
def GoInt.neg (i : GoInt) : GoInt :=
  GoInt.ofInt (-i.val)

/-! ## Regular expressions (the subset of Go `regexp` syntax in use) -/

/-- Regular expression syntax trees. -/
inductive Re
  | noMatch
  | emptyMatch
  /-- The assertion `^` (no multi-line flag): the beginning of the text. -/
  | beginText
  | lit (c : Char)
  /-- A class with one range, `[lo-hi]`. -/
  | range (lo hi : Char)
  | concat (a b : Re)
  | alternate (a b : Re)
  | star (a : Re)
  | plus (a : Re)
  /-- The repetition `{0,1}`. -/
  | quest (a : Re)
  deriving DecidableEq, Repr

/-- Whether `r` matches the empty string; `st` says whether the position is
the beginning of the text. -/
def Re.nullable (st : Bool) : Re → Bool
  | .noMatch => false
  | .emptyMatch => true
  | .beginText => st
  | .lit _ => false
  | .range _ _ => false
  | .concat a b => nullable st a && nullable st b
  | .alternate a b => nullable st a || nullable st b
  | .star _ => true
  | .plus a => nullable st a
  | .quest _ => true

/-- The derivative of `r` by the character `c` read at a position that is the
beginning of the text iff `st`. -/
def Re.der (st : Bool) (c : Char) : Re → Re
  | .noMatch => .noMatch
  | .emptyMatch => .noMatch
  | .beginText => .noMatch
  | .lit d => if c = d then .emptyMatch else .noMatch
  | .range lo hi => if lo ≤ c ∧ c ≤ hi then .emptyMatch else .noMatch
  | .concat a b =>
    if nullable st a then .alternate (.concat (der st c a) b) (der st c b)
    else .concat (der st c a) b
  | .alternate a b => .alternate (der st c a) (der st c b)
  | .star a => .concat (der st c a) (.star a)
  | .plus a => .concat (der st c a) (.star a)
  | .quest a => der st c a

/-- Whether some leading part of `s` matches `r`. -/
def Re.matchesLeading (st : Bool) (r : Re) : List Char → Bool
  | [] => r.nullable st
  | c :: cs => r.nullable st || matchesLeading false (r.der st c) cs

/-- Whether a match of `r` starts at some position of `s`. -/
def Re.search (st : Bool) (r : Re) : List Char → Bool
  | [] => r.matchesLeading st []
  | c :: cs => r.matchesLeading st (c :: cs) || search false r cs

/-- Go `regexp.MatchString`: whether the text contains any match. -/
def MatchString (r : Re) (s : String) : Bool :=
  r.search true s.data

/-- Denotation of a regular expression: `Matches st r w` says that `r` matches
exactly the word `w`, read from a position that is the beginning of the text
iff `st`. -/
inductive Re.Matches : Bool → Re → List Char → Prop
  | emptyMatch (st : Bool) : Matches st .emptyMatch []
  | beginText : Matches true .beginText []
  | lit (st : Bool) (c : Char) : Matches st (.lit c) [c]
  | range (st : Bool) (lo hi c : Char) : lo ≤ c → c ≤ hi → Matches st (.range lo hi) [c]
  | concat (st : Bool) (a b : Re) (u v : List Char) :
      Matches st a u → Matches (st && u.isEmpty) b v → Matches st (.concat a b) (u ++ v)
  | altL (st : Bool) (a b : Re) (w : List Char) : Matches st a w → Matches st (.alternate a b) w
  | altR (st : Bool) (a b : Re) (w : List Char) : Matches st b w → Matches st (.alternate a b) w
  | starNil (st : Bool) (a : Re) : Matches st (.star a) []
  | starCons (st : Bool) (a : Re) (u v : List Char) :
      Matches st a u → Matches (st && u.isEmpty) (.star a) v → Matches st (.star a) (u ++ v)
  | plus (st : Bool) (a : Re) (u v : List Char) :
      Matches st a u → Matches (st && u.isEmpty) (.star a) v → Matches st (.plus a) (u ++ v)
  | questNone (st : Bool) (a : Re) : Matches st (.quest a) []
  | questSome (st : Bool) (a : Re) (w : List Char) : Matches st a w → Matches st (.quest a) w

/-- The pattern `^\-{0,1}[1-9]+|^\-{0,1}0+[1-9]` of `ConvertToBool`. -/
def truthyPattern : Re :=
  .alternate
    (.concat .beginText (.concat (.quest (.lit '-')) (.plus (.range '1' '9'))))
    (.concat .beginText
      (.concat (.quest (.lit '-')) (.concat (.plus (.lit '0')) (.range '1' '9'))))

/-! ## Truthiness -/

/-- `ConvertToBool`: the two-valued truthiness of a value; panics on a kind
it has no case for. -/
def ConvertToBool (a : Value) : Except Panic Bool :=
  match a with
  | .null => .ok false
  | .int64 i => .ok (i != 0)
  | .uint64 u => .ok (u != 0)
  | .float32 f => .ok (GoFloat.ge (GoFloat.abs f) GoFloat.one)
  | .float64 f => .ok (GoFloat.ge (GoFloat.abs f) GoFloat.one)
  | .string s => .ok (MatchString truthyPattern s)
  | .decimal d => .ok (!d.IsZero)
  | .time _ => .error (.unreachableKind a.Kind.code)
  | .other _ => .error (.unreachableKind a.Kind.code)

/-- The maximal run of ASCII digits at the head of `t` holds a digit other
than `0`. -/
def digitRunNonzero (t : List Char) : Bool :=
  (t.takeWhile Char.isDigit).any (fun c => c != '0')

/-- String truthiness in the words of the specification: after at most one
leading `-`, the text begins with a run of ASCII digits whose maximal run
holds a digit other than `0`. -/
def specStringTruthy (s : List Char) : Bool :=
  digitRunNonzero s ||
    match s with
    | '-' :: t => digitRunNonzero t
    | _ => false

/-! ## Comparison -/

/-- The SQL types `compare` converts a string to. -/
inductive FieldTp
  | TypeTimestamp | TypeDate | TypeFloat
  deriving DecidableEq, Repr

/-- The two entry points of the engine library that `compare` calls, each
with a fresh statement context. An error is carried as its message. -/
structure TypesLib where
  CompareDatum : Value → Value → Except String GoInt
  ConvertTo : Value → FieldTp → Except String Value

/-- One step of the conversion chain: convert the string operand `s` to the
type `tp` and, if that succeeds, compare `x` with the converted datum; the
result `r` when both calls return a nil error. -/
def convertThenCompare (L : TypesLib) (x s : Value) (tp : FieldTp) : Option GoInt :=
  match L.ConvertTo s tp with
  | .ok i =>
    match L.CompareDatum x i with
    | .ok r => some r
    | .error _ => none
  | .error _ => none

/-- The conversion of the string operand that rules 2 and 4 are specified to
use: the first that succeeds, trying timestamp, then date, then float. -/
def firstSuccessfulConversion (L : TypesLib) (s : Value) : Option Value :=
  match L.ConvertTo s .TypeTimestamp with
  | .ok i => some i
  | .error _ =>
    match L.ConvertTo s .TypeDate with
    | .ok i => some i
    | .error _ =>
      match L.ConvertTo s .TypeFloat with
      | .ok i => some i
      | .error _ => none

/-- `compare(a, b)`: the direct comparison, and on its failure the fallback
rules by kind pair; a pair no rule settles ends in the panic after the
`switch`. -/
def compare (L : TypesLib) (a b : Value) : Except Panic GoInt :=
  match L.CompareDatum a b with
  | .ok res => .ok res
  | .error err =>
    let zero := Value.int64 0
    let failure : Except Panic GoInt := .error (.compareErr a b err)
    match a.Kind with
    | .KindFloat32 | .KindFloat64 | .KindInt64 | .KindUint64 =>
      match b.Kind with
      | .KindString =>
        match L.CompareDatum a zero with
        | .ok i => .ok i
        | .error _ => failure
      | _ => failure
    | .KindMysqlTime =>
      match b.Kind with
      | .KindString =>
        match convertThenCompare L a b .TypeTimestamp with
        | some r => .ok r
        | none =>
          match convertThenCompare L a b .TypeDate with
          | some r => .ok r
          | none =>
            match convertThenCompare L a b .TypeFloat with
            | some r => .ok r
            | none => .ok (GoInt.ofInt 0)
      | _ => failure
    | .KindString =>
      match b.Kind with
      | .KindFloat32 | .KindFloat64 | .KindInt64 | .KindUint64 =>
        match L.CompareDatum b zero with
        | .ok i => .ok i.neg
        | .error _ => failure
      | .KindMysqlTime =>
        match convertThenCompare L b a .TypeTimestamp with
        | some r => .ok r.neg
        | none =>
          match convertThenCompare L b a .TypeDate with
          | some r => .ok r.neg
          | none =>
            match convertThenCompare L b a .TypeFloat with
            | some r => .ok r.neg
            | none => failure
      | _ => failure
    | _ => failure

/-! ## Operators -/

/-- What an operator's function returns: the value and the Go `error`
(`none` is `nil`). -/
abbrev EvalResult := Except Panic (Value × Option String)

/-- The shared head of every operator: `e.SetNull(); return e, nil` when an
operand is NULL. -/
def isNullPair (a b : Value) : Bool :=
  a.Kind == .KindNull || b.Kind == .KindNull

/-- `LogicXor`: `ConvertToBool(a) != ConvertToBool(b)`. -/
def LogicXor (a b : Value) : EvalResult :=
  if isNullPair a b then .ok (.null, none)
  else
    match ConvertToBool a with
    | .error p => .error p
    | .ok x =>
      match ConvertToBool b with
      | .error p => .error p
      | .ok y => .ok (SetValue (x != y), none)

/-- `LogicAnd`: `ConvertToBool(a) && ConvertToBool(b)`; Go evaluates the
right operand only when the left one is true. -/
def LogicAnd (a b : Value) : EvalResult :=
  if isNullPair a b then .ok (.null, none)
  else
    match ConvertToBool a with
    | .error p => .error p
    | .ok false => .ok (SetValue false, none)
    | .ok true =>
      match ConvertToBool b with
      | .error p => .error p
      | .ok y => .ok (SetValue y, none)

/-- `LogicOr`: `ConvertToBool(a) || ConvertToBool(b)`; Go evaluates the right
operand only when the left one is false. -/
def LogicOr (a b : Value) : EvalResult :=
  if isNullPair a b then .ok (.null, none)
  else
    match ConvertToBool a with
    | .error p => .error p
    | .ok true => .ok (SetValue true, none)
    | .ok false =>
      match ConvertToBool b with
      | .error p => .error p
      | .ok y => .ok (SetValue y, none)

/-- The body shared by the six relational operators: NULL check, then
`e.SetValue(pred(compare(a, b)))`. -/
def relational (pred : Int → Bool) (L : TypesLib) (a b : Value) : EvalResult :=
  if isNullPair a b then .ok (.null, none)
  else
    match compare L a b with
    | .error p => .error p
    | .ok r => .ok (SetValue (pred r.val), none)

/-- `Gt`: `compare(a, b) > 0`. -/
def Gt (L : TypesLib) (a b : Value) : EvalResult :=
  relational (fun r => decide (r > 0)) L a b

/-- `Lt`: `compare(a, b) < 0`. -/
def Lt (L : TypesLib) (a b : Value) : EvalResult :=
  relational (fun r => decide (r < 0)) L a b

/-- `Ne`: `compare(a, b) != 0`. -/
def Ne (L : TypesLib) (a b : Value) : EvalResult :=
  relational (fun r => decide (r ≠ 0)) L a b

/-- `Eq`: `compare(a, b) == 0`. -/
def Eq (L : TypesLib) (a b : Value) : EvalResult :=
  relational (fun r => decide (r = 0)) L a b

/-- `Ge`: `compare(a, b) >= 0`. -/
def Ge (L : TypesLib) (a b : Value) : EvalResult :=
  relational (fun r => decide (r ≥ 0)) L a b

/-- `Le`: `compare(a, b) <= 0`. -/
def Le (L : TypesLib) (a b : Value) : EvalResult :=
  relational (fun r => decide (r ≤ 0)) L a b

/-- The kinds `ConvertToBool` has a `case` for. -/
def truthinessKinds : List Kind :=
  [.KindNull, .KindInt64, .KindUint64, .KindFloat32, .KindFloat64, .KindString,
    .KindMysqlDecimal]

/-- The kinds the fallback rules of `compare` call numeric. -/
def numericKinds : List Kind :=
  [.KindFloat32, .KindFloat64, .KindInt64, .KindUint64]

/-! ## A small library instance

`demoLib` behaves like the engine library on the inputs the statements below
are instantiated at: numbers compare by value, a string compares with a
number only when it is a run of digits, and a time never compares directly
with a string. -/

/-- The sign `-1`, `0` or `1` of `x - y` as a Go `int`. -/
def signOf (x y : Int) : GoInt :=
  if x < y then GoInt.ofInt (-1) else if x = y then GoInt.ofInt 0 else GoInt.ofInt 1

/-- The value of a non-empty run of ASCII digits. -/
def digitsVal : List Char → Option Nat
  | [] => none
  | cs => if cs.all Char.isDigit then some (cs.foldl (fun n c => 10 * n + (c.toNat - 48)) 0) else none

/-- A finite number `m / 2 ^ k` for the numeric kinds. -/
def numericVal : Value → Option (Int × Nat)
  | .int64 i => some (i, 0)
  | .uint64 u => some (u, 0)
  | .float32 (.fin m k) => some (m, k)
  | .float64 (.fin m k) => some (m, k)
  | _ => none

/-- The instant of a time value as one number. -/
def MysqlTime.ordinal (t : MysqlTime) : Nat :=
  (((((t.year * 13 + t.month) * 32 + t.day) * 24 + t.hour) * 60 + t.minute) * 60
    + t.second) * 1000000 + t.microsecond

/-- Comparison of `demoLib`. -/
def demoCompareDatum (a b : Value) : Except String GoInt :=
  match a, b with
  | .string s, .string t => .ok (if s < t then GoInt.ofInt (-1) else if s = t then GoInt.ofInt 0 else GoInt.ofInt 1)
  | .time s, .time t => .ok (signOf s.ordinal t.ordinal)
  | .string s, y =>
    match digitsVal s.data, numericVal y with
    | some n, some (m, k) => .ok (signOf (n * 2 ^ k) m)
    | _, _ => .error "cannot compare"
  | x, .string t =>
    match numericVal x, digitsVal t.data with
    | some (m, k), some n => .ok (signOf m (n * 2 ^ k))
    | _, _ => .error "cannot compare"
  | x, y =>
    match numericVal x, numericVal y with
    | some (m, k), some (n, j) => .ok (signOf (m * 2 ^ j) (n * 2 ^ k))
    | _, _ => .error "cannot compare"

/-- Conversion of `demoLib`: fourteen digits `yyyymmddhhmmss` convert to a
timestamp, eight digits `yyyymmdd` to a date, any run of digits to a float. -/
def demoConvertTo (v : Value) (tp : FieldTp) : Except String Value :=
  match v with
  | .string s =>
    match digitsVal s.data with
    | none => .error "invalid format"
    | some n =>
      match tp with
      | .TypeFloat => .ok (.float32 (.fin n 0))
      | .TypeTimestamp =>
        if s.length = 14 then
          .ok (.time ⟨.Timestamp, n / 10000000000, n / 100000000 % 100, n / 1000000 % 100,
            n / 10000 % 100, n / 100 % 100, n % 100, 0⟩)
        else .error "invalid format"
      | .TypeDate =>
        if s.length = 8 then
          .ok (.time ⟨.Date, n / 10000, n / 100 % 100, n % 100, 0, 0, 0, 0⟩)
        else .error "invalid format"
  | _ => .error "unsupported conversion"

/-- The library instance. -/
def demoLib : TypesLib :=
  ⟨demoCompareDatum, demoConvertTo⟩

/-! ## Definitions used by the statements on integers and on result shapes -/

/-- Modelled from the spec: the engine library's direct comparison of an
unsigned with a signed integer, which is not part of the repository. The two
are compared by their numeric value, so that the unsigned `0` is greater than
the signed `-1`; every other pair of operands is left to `fallback`. -/
def specCompareIntegers (fallback : Value → Value → Except String GoInt)
    (a b : Value) : Except String GoInt :=
  match a, b with
  | .uint64 u, .int64 i => .ok (signOf u i)
  | .int64 i, .uint64 u => .ok (signOf i u)
  | _, _ => fallback a b

/-- The library `L` with the integer comparison of the specification. -/
def specIntegerLib (L : TypesLib) : TypesLib :=
  ⟨specCompareIntegers L.CompareDatum, L.ConvertTo⟩

/-- The shape of every returned result: a nil error, and Null exactly when an
operand is Null, else a boolean. -/
def resultInDomain (a b v : Value) (err : Option String) : Prop :=
  err = none ∧ (v = .null ∨ v = .int64 0 ∨ v = .int64 1) ∧
    (v = .null ↔ (a.Kind = .KindNull ∨ b.Kind = .KindNull))

/-! ## Theorems -/

/-- C1. NULL propagation: for each of the nine operators and every operand `x`
of any kind, with any library, the operator applied to `(Null, x)` and to
`(x, Null)` returns the Null value with a nil error (so the truthiness or
comparison of `x`, which may panic, is not evaluated). -/
theorem C1_null_propagation (L : TypesLib) (x : Value) :
    (LogicXor .null x = .ok (.null, none) ∧ LogicXor x .null = .ok (.null, none)) ∧
    (LogicAnd .null x = .ok (.null, none) ∧ LogicAnd x .null = .ok (.null, none)) ∧
    (LogicOr .null x = .ok (.null, none) ∧ LogicOr x .null = .ok (.null, none)) ∧
    (Gt L .null x = .ok (.null, none) ∧ Gt L x .null = .ok (.null, none)) ∧
    (Lt L .null x = .ok (.null, none) ∧ Lt L x .null = .ok (.null, none)) ∧
    (Ne L .null x = .ok (.null, none) ∧ Ne L x .null = .ok (.null, none)) ∧
    (Eq L .null x = .ok (.null, none) ∧ Eq L x .null = .ok (.null, none)) ∧
    (Ge L .null x = .ok (.null, none) ∧ Ge L x .null = .ok (.null, none)) ∧
    (Le L .null x = .ok (.null, none) ∧ Le L x .null = .ok (.null, none)) := by
  simp [LogicXor, LogicAnd, LogicOr, Gt, Lt, Ne, Eq, Ge, Le, relational, isNullPair,
    Value.Kind]

/-- Every kind with a `case` in `ConvertToBool` yields a boolean. -/
theorem ConvertToBool_ok_of_kind (a : Value) (h : a.Kind ∈ truthinessKinds) :
    ∃ x, ConvertToBool a = .ok x := by
  cases a with
  | time t => simp [truthinessKinds, Value.Kind] at h
  | other k => cases k <;> simp [truthinessKinds, Value.Kind, OtherKind.toKind] at h
  | _ => exact ⟨_, rfl⟩

/-- C2. For non-Null operands `a`, `b` whose kinds `ConvertToBool` handles,
`ConvertToBool` yields booleans `x` and `y`, and AND returns the boolean value
`x && y`, OR returns `x || y` and XOR returns `x != y`, each with a nil error;
in particular `OR(Int64 0, Int64 1)` is true (the value `Int64 1`). -/
theorem C2_logic_connectives (a b : Value)
    (ha : a.Kind ∈ truthinessKinds) (hb : b.Kind ∈ truthinessKinds)
    (hna : a.Kind ≠ .KindNull) (hnb : b.Kind ≠ .KindNull) :
    (∃ x y, ConvertToBool a = .ok x ∧ ConvertToBool b = .ok y ∧
      LogicAnd a b = .ok (SetValue (x && y), none) ∧
      LogicOr a b = .ok (SetValue (x || y), none) ∧
      LogicXor a b = .ok (SetValue (x != y), none)) ∧
    LogicOr (.int64 0) (.int64 1) = .ok (.int64 1, none) := by
  obtain ⟨x, hx⟩ := ConvertToBool_ok_of_kind a ha
  obtain ⟨y, hy⟩ := ConvertToBool_ok_of_kind b hb
  refine ⟨⟨x, y, hx, hy, ?_, ?_, ?_⟩, by decide⟩
  · cases x <;> simp [LogicAnd, isNullPair, hna, hnb, hx, hy]
  · cases x <;> simp [LogicOr, isNullPair, hna, hnb, hx, hy]
  · simp [LogicXor, isNullPair, hna, hnb, hx, hy]

/-- Witness of C2 at `a = String "1"`, `b = Float64 0.9`. -/
theorem C2_logic_connectives_witness :
    (∃ x y, ConvertToBool (.string "1") = .ok x ∧
      ConvertToBool (.float64 (.fin 8106479329266893 53)) = .ok y ∧
      LogicAnd (.string "1") (.float64 (.fin 8106479329266893 53))
        = .ok (SetValue (x && y), none) ∧
      LogicOr (.string "1") (.float64 (.fin 8106479329266893 53))
        = .ok (SetValue (x || y), none) ∧
      LogicXor (.string "1") (.float64 (.fin 8106479329266893 53))
        = .ok (SetValue (x != y), none)) ∧
    LogicOr (.int64 0) (.int64 1) = .ok (.int64 1, none) :=
  C2_logic_connectives (.string "1") (.float64 (.fin 8106479329266893 53))
    (by decide) (by decide) (by decide) (by decide)

/-- C3. For non-Null operands `a`, `b` on which `compare` returns the signed
integer `r`, each relational operator returns, with a nil error, the boolean
of its predicate on `r`: GT `r > 0`, LT `r < 0`, GE `r >= 0`, LE `r <= 0`,
NE `r != 0`, EQ `r == 0`. -/
theorem C3_relational_operators (L : TypesLib) (a b : Value) (r : GoInt)
    (hna : a.Kind ≠ .KindNull) (hnb : b.Kind ≠ .KindNull)
    (hr : compare L a b = .ok r) :
    Gt L a b = .ok (SetValue (decide (r.val > 0)), none) ∧
    Lt L a b = .ok (SetValue (decide (r.val < 0)), none) ∧
    Ge L a b = .ok (SetValue (decide (r.val ≥ 0)), none) ∧
    Le L a b = .ok (SetValue (decide (r.val ≤ 0)), none) ∧
    Ne L a b = .ok (SetValue (decide (r.val ≠ 0)), none) ∧
    Eq L a b = .ok (SetValue (decide (r.val = 0)), none) := by
  simp [Gt, Lt, Ge, Le, Ne, Eq, relational, isNullPair, hna, hnb, hr]

/-- Witness of C3 at `a = Int64 2`, `b = Int64 2` with `demoLib`, where
`compare` returns `0`. -/
theorem C3_relational_operators_witness :
    Gt demoLib (.int64 2) (.int64 2) = .ok (SetValue (decide ((GoInt.ofInt 0).val > 0)), none) ∧
    Lt demoLib (.int64 2) (.int64 2) = .ok (SetValue (decide ((GoInt.ofInt 0).val < 0)), none) ∧
    Ge demoLib (.int64 2) (.int64 2) = .ok (SetValue (decide ((GoInt.ofInt 0).val ≥ 0)), none) ∧
    Le demoLib (.int64 2) (.int64 2) = .ok (SetValue (decide ((GoInt.ofInt 0).val ≤ 0)), none) ∧
    Ne demoLib (.int64 2) (.int64 2) = .ok (SetValue (decide ((GoInt.ofInt 0).val ≠ 0)), none) ∧
    Eq demoLib (.int64 2) (.int64 2) = .ok (SetValue (decide ((GoInt.ofInt 0).val = 0)), none) :=
  C3_relational_operators demoLib (.int64 2) (.int64 2) (GoInt.ofInt 0)
    (by decide) (by decide) (by decide)

/-- A finite float `m / 2 ^ k` passes `|x| >= 1` exactly when the rational
number it denotes has absolute value at least one. -/
theorem GoFloat.abs_ge_one_fin (m : Int) (k : Nat) :
    GoFloat.ge (GoFloat.abs (.fin m k)) GoFloat.one = true ↔
      (1 : ℚ) ≤ |(m : ℚ) / 2 ^ k| := by
  have hpos : (0 : ℚ) < 2 ^ k := by positivity
  have habs : (if m < 0 then -m else m) = |m| := by
    split
    · rw [abs_of_neg (by assumption)]
    · rw [abs_of_nonneg (by omega)]
  simp only [GoFloat.abs, GoFloat.one, GoFloat.ge, habs, decide_eq_true_eq, pow_zero, mul_one,
    one_mul]
  rw [abs_div, abs_of_pos hpos, le_div_iff₀ hpos, one_mul]
  constructor
  · intro h
    have : ((2 ^ k : Int) : ℚ) ≤ ((|m| : Int) : ℚ) := by exact_mod_cast h
    simpa using this
  · intro h
    have : ((2 ^ k : Int) : ℚ) ≤ ((|m| : Int) : ℚ) := by simpa using h
    exact_mod_cast this

/-- C4. Float truthiness threshold: for every Float32 or Float64 value `x`
(`x` given as not-a-number, an infinity, or the finite number `m / 2 ^ k`),
`ConvertToBool` returns a boolean, and it is true iff the absolute value of
`x` is at least 1: `x` is an infinity or `1 ≤ |m / 2 ^ k|`. With the doubles
nearest to the literals: `0.9` is false, `1.0` is true, `-1.5` is true. -/
theorem C4_float_truthiness (x : GoFloat) :
    (∃ t, ConvertToBool (.float64 x) = .ok t ∧ ConvertToBool (.float32 x) = .ok t ∧
      (t = true ↔ ((∃ n, x = .inf n) ∨
        ∃ m k, x = .fin m k ∧ (1 : ℚ) ≤ |(m : ℚ) / 2 ^ k|))) ∧
    ConvertToBool (.float64 (.fin 8106479329266893 53)) = .ok false ∧
    ConvertToBool (.float64 (.fin 1 0)) = .ok true ∧
    ConvertToBool (.float64 (.fin (-3) 1)) = .ok true := by
  refine ⟨⟨_, rfl, rfl, ?_⟩, by decide, by decide, by decide⟩
  cases x with
  | nan => simp [GoFloat.abs, GoFloat.ge]
  | inf n => simp [GoFloat.abs, GoFloat.ge, GoFloat.one]
  | fin m k =>
    rw [GoFloat.abs_ge_one_fin]
    constructor
    · intro h
      exact Or.inr ⟨m, k, rfl, h⟩
    · rintro (⟨n, hn⟩ | ⟨m', k', hx, h⟩)
      · cases hn
      · cases hx
        exact h

/-! ### The regular expression matcher -/

theorem Re.nullable_of_matches_nil {st : Bool} {r : Re} {w : List Char}
    (h : Re.Matches st r w) : w = [] → r.nullable st = true := by
  induction h with
  | emptyMatch st => intro _; rfl
  | beginText => intro _; rfl
  | lit st c => intro h; cases h
  | range st lo hi c _ _ => intro h; cases h
  | concat st a b u v _ _ ih1 ih2 =>
    intro h
    obtain ⟨hu, hv⟩ := List.append_eq_nil.mp h
    subst hu
    have h2 := ih2 hv
    simp only [List.isEmpty_nil, Bool.and_true] at h2
    simp [Re.nullable, ih1 rfl, h2]
  | altL st a b w _ ih => intro h; simp [Re.nullable, ih h]
  | altR st a b w _ ih => intro h; simp [Re.nullable, ih h]
  | starNil st a => intro _; rfl
  | starCons st a u v _ _ _ _ => intro _; rfl
  | plus st a u v _ _ ih1 _ =>
    intro h
    obtain ⟨hu, _⟩ := List.append_eq_nil.mp h
    simpa [Re.nullable] using ih1 hu
  | questNone st a => intro _; rfl
  | questSome st a w _ _ => intro _; rfl

theorem Re.matches_nil_of_nullable (st : Bool) (r : Re) :
    r.nullable st = true → Re.Matches st r [] := by
  induction r with
  | noMatch => intro h; simp [Re.nullable] at h
  | emptyMatch => intro _; exact .emptyMatch st
  | beginText =>
    intro h
    simp only [Re.nullable] at h
    subst h
    exact .beginText
  | lit c => intro h; simp [Re.nullable] at h
  | range lo hi => intro h; simp [Re.nullable] at h
  | concat a b iha ihb =>
    intro h
    simp only [Re.nullable, Bool.and_eq_true] at h
    have hb : Re.Matches (st && ([] : List Char).isEmpty) b [] := by
      simpa using ihb h.2
    exact Re.Matches.concat st a b [] [] (iha h.1) hb
  | alternate a b iha ihb =>
    intro h
    simp only [Re.nullable, Bool.or_eq_true] at h
    rcases h with h | h
    · exact .altL st a b [] (iha h)
    · exact .altR st a b [] (ihb h)
  | star a _ => intro _; exact .starNil st a
  | plus a iha =>
    intro h
    simp only [Re.nullable] at h
    exact Re.Matches.plus st a [] [] (iha h) (.starNil _ a)
  | quest a _ => intro _; exact .questNone st a

theorem Re.nullable_iff (st : Bool) (r : Re) :
    r.nullable st = true ↔ Re.Matches st r [] :=
  ⟨Re.matches_nil_of_nullable st r, fun h => Re.nullable_of_matches_nil h rfl⟩

theorem Re.matches_cons_of_der (st : Bool) (c : Char) (r : Re) :
    ∀ w, Re.Matches false (r.der st c) w → Re.Matches st r (c :: w) := by
  induction r with
  | noMatch => intro w h; cases h
  | emptyMatch => intro w h; cases h
  | beginText => intro w h; cases h
  | lit d =>
    intro w h
    simp only [Re.der] at h
    split at h
    · cases h
      rename_i hc
      subst hc
      exact .lit st c
    · cases h
  | range lo hi =>
    intro w h
    simp only [Re.der] at h
    split at h
    · cases h
      rename_i hc
      exact .range st lo hi c hc.1 hc.2
    · cases h
  | concat a b iha ihb =>
    intro w h
    have key : ∀ w, Re.Matches false (.concat (a.der st c) b) w →
        Re.Matches st (.concat a b) (c :: w) := by
      intro w h
      cases h with
      | concat _ _ _ u v h1 h2 =>
        simp only [Bool.false_and] at h2
        have h2 : Re.Matches (st && (c :: u).isEmpty) b v := by simpa using h2
        exact Re.Matches.concat st a b (c :: u) v (iha u h1) h2
    simp only [Re.der] at h
    split at h
    · rename_i hn
      cases h with
      | altL _ _ _ _ h => exact key w h
      | altR _ _ _ _ h =>
        have hb : Re.Matches (st && ([] : List Char).isEmpty) b (c :: w) := by
          simpa using ihb w h
        exact Re.Matches.concat st a b [] (c :: w) (Re.matches_nil_of_nullable st a hn) hb
    · exact key w h
  | alternate a b iha ihb =>
    intro w h
    cases h with
    | altL _ _ _ _ h => exact .altL st a b _ (iha w h)
    | altR _ _ _ _ h => exact .altR st a b _ (ihb w h)
  | star a iha =>
    intro w h
    cases h with
    | concat _ _ _ u v h1 h2 =>
      have h2 : Re.Matches (st && (c :: u).isEmpty) (.star a) v := by simpa using h2
      exact Re.Matches.starCons st a (c :: u) v (iha u h1) h2
  | plus a iha =>
    intro w h
    cases h with
    | concat _ _ _ u v h1 h2 =>
      have h2 : Re.Matches (st && (c :: u).isEmpty) (.star a) v := by simpa using h2
      exact Re.Matches.plus st a (c :: u) v (iha u h1) h2
  | quest a iha =>
    intro w h
    exact .questSome st a _ (iha w h)

theorem Re.der_of_matches_cons {st : Bool} {r : Re} {x : List Char}
    (h : Re.Matches st r x) :
    ∀ c w, x = c :: w → Re.Matches false (r.der st c) w := by
  induction h with
  | emptyMatch st => intro c w h; cases h
  | beginText => intro c w h; cases h
  | lit st d =>
    intro c w h
    cases h
    simpa [Re.der] using Re.Matches.emptyMatch false
  | range st lo hi d h1 h2 =>
    intro c w h
    cases h
    simpa [Re.der, h1, h2] using Re.Matches.emptyMatch false
  | concat st a b u v h1 h2 ih1 ih2 =>
    intro c w h
    cases u with
    | nil =>
      simp only [List.nil_append] at h
      simp only [List.isEmpty_nil, Bool.and_true] at ih2
      have hn := Re.nullable_of_matches_nil h1 rfl
      simp only [Re.der, hn, if_true]
      exact .altR _ _ _ _ (ih2 c w h)
    | cons d u' =>
      simp only [List.cons_append, List.cons.injEq] at h
      obtain ⟨hd, hw⟩ := h
      subst hd
      subst hw
      have hb : Re.Matches (false && u'.isEmpty) b v := by simpa using h2
      have hc := Re.Matches.concat false (a.der st d) b u' v (ih1 d u' rfl) hb
      simp only [Re.der]
      split
      · exact .altL _ _ _ _ hc
      · exact hc
  | altL st a b w' _ ih => intro c w h; exact .altL _ _ _ _ (ih c w h)
  | altR st a b w' _ ih => intro c w h; exact .altR _ _ _ _ (ih c w h)
  | starNil st a => intro c w h; cases h
  | starCons st a u v h1 h2 ih1 ih2 =>
    intro c w h
    cases u with
    | nil =>
      simp only [List.nil_append] at h
      simp only [List.isEmpty_nil, Bool.and_true] at ih2
      exact ih2 c w h
    | cons d u' =>
      simp only [List.cons_append, List.cons.injEq] at h
      obtain ⟨hd, hw⟩ := h
      subst hd
      subst hw
      have hb : Re.Matches (false && u'.isEmpty) (.star a) v := by simpa using h2
      exact Re.Matches.concat false (a.der st d) (.star a) u' v (ih1 d u' rfl) hb
  | plus st a u v h1 h2 ih1 ih2 =>
    intro c w h
    cases u with
    | nil =>
      simp only [List.nil_append] at h
      simp only [List.isEmpty_nil, Bool.and_true] at ih2
      exact ih2 c w h
    | cons d u' =>
      simp only [List.cons_append, List.cons.injEq] at h
      obtain ⟨hd, hw⟩ := h
      subst hd
      subst hw
      have hb : Re.Matches (false && u'.isEmpty) (.star a) v := by simpa using h2
      exact Re.Matches.concat false (a.der st d) (.star a) u' v (ih1 d u' rfl) hb
  | questNone st a => intro c w h; cases h
  | questSome st a w' _ ih => intro c w h; exact ih c w h

theorem Re.der_iff (st : Bool) (c : Char) (r : Re) (w : List Char) :
    Re.Matches false (r.der st c) w ↔ Re.Matches st r (c :: w) :=
  ⟨Re.matches_cons_of_der st c r w, fun h => Re.der_of_matches_cons h c w rfl⟩

theorem Re.matchesLeading_iff (s : List Char) :
    ∀ st r, Re.matchesLeading st r s = true ↔ ∃ u v, s = u ++ v ∧ Re.Matches st r u := by
  induction s with
  | nil =>
    intro st r
    simp only [Re.matchesLeading, Re.nullable_iff]
    constructor
    · intro h
      exact ⟨[], [], rfl, h⟩
    · rintro ⟨u, v, huv, h⟩
      obtain ⟨hu, _⟩ := List.append_eq_nil.mp huv.symm
      subst hu
      exact h
  | cons c cs ih =>
    intro st r
    simp only [Re.matchesLeading, Bool.or_eq_true, Re.nullable_iff, ih]
    constructor
    · rintro (h | ⟨u, v, huv, h⟩)
      · exact ⟨[], c :: cs, rfl, h⟩
      · exact ⟨c :: u, v, by simp [huv], (Re.der_iff st c r u).mp h⟩
    · rintro ⟨u, v, huv, h⟩
      cases u with
      | nil => exact Or.inl h
      | cons d u' =>
        simp only [List.cons_append, List.cons.injEq] at huv
        obtain ⟨hd, hcs⟩ := huv
        subst hd
        exact Or.inr ⟨u', v, hcs, (Re.der_iff st c r u').mpr h⟩

/-- A pattern that begins with `^` matches only from the beginning of the text. -/
theorem truthyPattern_anchor {st : Bool} {u : List Char}
    (h : Re.Matches st truthyPattern u) : st = true := by
  unfold truthyPattern at h
  cases h with
  | altL _ _ _ _ h =>
    cases h with
    | concat _ _ _ u v h1 h2 => cases h1; rfl
  | altR _ _ _ _ h =>
    cases h with
    | concat _ _ _ u v h1 h2 => cases h1; rfl

theorem truthyPattern_search_false (s : List Char) :
    Re.search false truthyPattern s = false := by
  have hl : ∀ s, Re.matchesLeading false truthyPattern s = false := by
    intro s
    cases hm : Re.matchesLeading false truthyPattern s with
    | false => rfl
    | true =>
      obtain ⟨u, v, _, h⟩ := (Re.matchesLeading_iff s false truthyPattern).mp hm
      exact absurd (truthyPattern_anchor h) (by simp)
  induction s with
  | nil => simp [Re.search, hl]
  | cons c cs ih => simp [Re.search, hl, ih]

theorem MatchString_truthyPattern_iff (s : String) :
    MatchString truthyPattern s = true ↔
      ∃ u v, s.data = u ++ v ∧ Re.Matches true truthyPattern u := by
  unfold MatchString
  rw [← Re.matchesLeading_iff s.data true truthyPattern]
  cases hs : s.data with
  | nil => simp [Re.search]
  | cons c cs => simp [Re.search, truthyPattern_search_false]

theorem char_le_iff (a b : Char) : a ≤ b ↔ a.toNat ≤ b.toNat := Iff.rfl

theorem char_isDigit_iff (d : Char) : d.isDigit = true ↔ 48 ≤ d.toNat ∧ d.toNat ≤ 57 := by
  simp only [Char.isDigit, Bool.and_eq_true, decide_eq_true_eq, ge_iff_le]
  exact Iff.rfl

theorem char_eq_zero_iff (d : Char) : d = '0' ↔ d.toNat = 48 := by
  constructor
  · intro h
    subst h
    rfl
  · intro h
    apply Char.ext
    apply UInt32.ext
    exact h

theorem digit_nonzero_iff (d : Char) :
    (d.isDigit = true ∧ d ≠ '0') ↔ ('1' ≤ d ∧ d ≤ '9') := by
  rw [char_isDigit_iff, char_le_iff, char_le_iff, ne_eq, char_eq_zero_iff]
  have h1 : ('1' : Char).toNat = 49 := rfl
  have h9 : ('9' : Char).toNat = 57 := rfl
  rw [h1, h9]
  omega

/-- A run of zeros followed by a digit from 1 to 9 has a nonzero digit run. -/
theorem digitRunNonzero_of_zeros (zs : List Char) (d : Char) (rest : List Char)
    (hz : ∀ z ∈ zs, z = '0') (hd : '1' ≤ d ∧ d ≤ '9') :
    digitRunNonzero (zs ++ d :: rest) = true := by
  obtain ⟨hdig, hne⟩ := (digit_nonzero_iff d).mpr hd
  induction zs with
  | nil =>
    simp [digitRunNonzero, List.takeWhile, hdig, hne]
  | cons z zs ih =>
    have hz0 : z = '0' := hz z (List.mem_cons_self _ _)
    have ih := ih (fun y hy => hz y (List.mem_cons_of_mem _ hy))
    subst hz0
    simp only [digitRunNonzero, List.cons_append, List.takeWhile] at ih ⊢
    have h0 : ('0' : Char).isDigit = true := by decide
    simp only [h0, List.any_cons, Bool.or_eq_true]
    exact Or.inr ih

/-- A nonzero digit run is a run of zeros followed by a digit from 1 to 9. -/
theorem zeros_of_digitRunNonzero (t : List Char) (h : digitRunNonzero t = true) :
    ∃ zs d rest, t = zs ++ d :: rest ∧ (∀ z ∈ zs, z = '0') ∧ ('1' ≤ d ∧ d ≤ '9') := by
  induction t with
  | nil => simp [digitRunNonzero] at h
  | cons x xs ih =>
    by_cases hx : x.isDigit = true
    · by_cases h0 : x = '0'
      · have hxs : digitRunNonzero xs = true := by
          simp only [digitRunNonzero, List.takeWhile, hx, List.any_cons, Bool.or_eq_true] at h
          rcases h with h | h
          · simp [h0] at h
          · exact h
        obtain ⟨zs, d, rest, ht, hz, hd⟩ := ih hxs
        refine ⟨x :: zs, d, rest, by simp [ht], ?_, hd⟩
        intro z hzmem
        rcases List.mem_cons.mp hzmem with hzx | hzz
        · rw [hzx, h0]
        · exact hz z hzz
      · exact ⟨[], x, xs, rfl, by simp, (digit_nonzero_iff x).mp ⟨hx, h0⟩⟩
    · simp [digitRunNonzero, List.takeWhile, hx] at h

theorem Re.matches_quest_minus {st : Bool} {w : List Char}
    (h : Re.Matches st (.quest (.lit '-')) w) : w = [] ∨ w = ['-'] := by
  cases h with
  | questNone => exact Or.inl rfl
  | questSome _ _ _ h => cases h; exact Or.inr rfl

theorem Re.matches_range {st : Bool} {lo hi : Char} {w : List Char}
    (h : Re.Matches st (.range lo hi) w) : ∃ c, w = [c] ∧ lo ≤ c ∧ c ≤ hi := by
  cases h with
  | range _ _ _ c h1 h2 => exact ⟨c, rfl, h1, h2⟩

theorem Re.matches_star_zero {st : Bool} {r : Re} {w : List Char}
    (h : Re.Matches st r w) : r = .star (.lit '0') → ∀ x ∈ w, x = '0' := by
  induction h with
  | starNil st a => intro _ x hx; simp at hx
  | starCons st a u v h1 _ _ ih2 =>
    intro hr x hx
    cases hr
    cases h1
    rcases List.mem_append.mp hx with hx | hx
    · simpa using hx
    · exact ih2 rfl x hx
  | _ => intro hr; cases hr

theorem Re.star_zero_matches (st : Bool) (zs : List Char) (hz : ∀ z ∈ zs, z = '0') :
    Re.Matches st (.star (.lit '0')) zs := by
  induction zs generalizing st with
  | nil => exact .starNil st _
  | cons z zs ih =>
    have hz0 : z = '0' := hz z (List.mem_cons_self _ _)
    subst hz0
    exact Re.Matches.starCons st (.lit '0') ['0'] zs (.lit st '0')
      (ih _ (fun y hy => hz y (List.mem_cons_of_mem _ hy)))

theorem Re.matches_concat_inv {st : Bool} {a b : Re} {w : List Char}
    (h : Re.Matches st (.concat a b) w) :
    ∃ u v, w = u ++ v ∧ Re.Matches st a u ∧ Re.Matches (st && u.isEmpty) b v := by
  cases h with
  | concat _ _ _ u v h1 h2 => exact ⟨u, v, rfl, h1, h2⟩

theorem Re.matches_plus_inv {st : Bool} {a : Re} {w : List Char}
    (h : Re.Matches st (.plus a) w) :
    ∃ u v, w = u ++ v ∧ Re.Matches st a u ∧ Re.Matches (st && u.isEmpty) (.star a) v := by
  cases h with
  | plus _ _ u v h1 h2 => exact ⟨u, v, rfl, h1, h2⟩

theorem Re.matches_alternate_inv {st : Bool} {a b : Re} {w : List Char}
    (h : Re.Matches st (.alternate a b) w) : Re.Matches st a w ∨ Re.Matches st b w := by
  cases h with
  | altL _ _ _ _ h => exact Or.inl h
  | altR _ _ _ _ h => exact Or.inr h

theorem Re.matches_beginText_inv {st : Bool} {w : List Char}
    (h : Re.Matches st .beginText w) : w = [] := by
  cases h
  rfl

theorem Re.matches_lit_inv {st : Bool} {c : Char} {w : List Char}
    (h : Re.Matches st (.lit c) w) : w = [c] := by
  cases h
  rfl

/-- The words the pattern matches from the beginning of the text: an optional
`-`, a run of zeros, a digit from 1 to 9, and in the first alternative more
such digits. -/
theorem truthyPattern_matches_shape {u : List Char}
    (h : Re.Matches true truthyPattern u) :
    ∃ q zs d rest, u = q ++ (zs ++ d :: rest) ∧ (q = [] ∨ q = ['-']) ∧
      (∀ z ∈ zs, z = '0') ∧ ('1' ≤ d ∧ d ≤ '9') := by
  unfold truthyPattern at h
  rcases Re.matches_alternate_inv h with h | h
  · obtain ⟨u1, v1, hu, h1, h2⟩ := Re.matches_concat_inv h
    obtain ⟨q, p, hv1, hq, hp⟩ := Re.matches_concat_inv h2
    obtain ⟨p1, p2, hp12, hp1, _⟩ := Re.matches_plus_inv hp
    obtain ⟨d, hd, hlo, hhi⟩ := Re.matches_range hp1
    have hu1 := Re.matches_beginText_inv h1
    subst hu hv1 hp12 hd hu1
    exact ⟨q, [], d, p2, by simp, Re.matches_quest_minus hq, by simp, hlo, hhi⟩
  · obtain ⟨u1, v1, hu, h1, h2⟩ := Re.matches_concat_inv h
    obtain ⟨q, p, hv1, hq, hp⟩ := Re.matches_concat_inv h2
    obtain ⟨z, e, hze, hz, he⟩ := Re.matches_concat_inv hp
    obtain ⟨z1, z2, hz12, hz1, hz2⟩ := Re.matches_plus_inv hz
    obtain ⟨d, hd, hlo, hhi⟩ := Re.matches_range he
    have hu1 := Re.matches_beginText_inv h1
    have hz1e := Re.matches_lit_inv hz1
    subst hu hv1 hze hz12 hd hu1 hz1e
    refine ⟨q, '0' :: z2, d, [], by simp, Re.matches_quest_minus hq, ?_, hlo, hhi⟩
    intro x hx
    rcases List.mem_cons.mp hx with hx | hx
    · exact hx
    · exact Re.matches_star_zero hz2 rfl x hx

/-- Every word of that shape is matched by the pattern. -/
theorem truthyPattern_matches_of_shape (q zs : List Char) (d : Char)
    (hq : q = [] ∨ q = ['-']) (hz : ∀ z ∈ zs, z = '0') (hd : '1' ≤ d ∧ d ≤ '9') :
    Re.Matches true truthyPattern (q ++ (zs ++ [d])) := by
  have hquest : ∀ st, Re.Matches st (.quest (.lit '-')) q := by
    intro st
    rcases hq with hq | hq
    · subst hq; exact .questNone st _
    · subst hq; exact .questSome st _ _ (.lit st '-')
  have hrange : ∀ st, Re.Matches st (.range '1' '9') [d] :=
    fun st => .range st _ _ d hd.1 hd.2
  unfold truthyPattern
  cases zs with
  | nil =>
    apply Re.Matches.altL
    have hp : ∀ st, Re.Matches st (.plus (.range '1' '9')) [d] := fun st =>
      Re.Matches.plus st _ [d] [] (hrange st) (.starNil _ _)
    exact Re.Matches.concat true _ _ [] (q ++ ([] ++ [d])) .beginText
      (Re.Matches.concat _ _ _ q ([] ++ [d]) (hquest _) (hp _))
  | cons z zs =>
    apply Re.Matches.altR
    have hz0 : z = '0' := hz z (List.mem_cons_self _ _)
    subst hz0
    have hp : ∀ st, Re.Matches st (.plus (.lit '0')) ('0' :: zs) := fun st =>
      Re.Matches.plus st _ ['0'] zs (.lit st '0')
        (Re.star_zero_matches _ zs (fun y hy => hz y (List.mem_cons_of_mem _ hy)))
    exact Re.Matches.concat true _ _ [] (q ++ ('0' :: zs ++ [d])) .beginText
      (Re.Matches.concat _ _ _ q ('0' :: zs ++ [d]) (hquest _)
        (Re.Matches.concat _ _ _ ('0' :: zs) [d] (hp _) (hrange _)))

theorem specStringTruthy_of_shape (q zs : List Char) (d : Char) (rest : List Char)
    (hq : q = [] ∨ q = ['-']) (hz : ∀ z ∈ zs, z = '0') (hd : '1' ≤ d ∧ d ≤ '9') :
    specStringTruthy (q ++ (zs ++ d :: rest)) = true := by
  have hrun := digitRunNonzero_of_zeros zs d rest hz hd
  rcases hq with hq | hq
  · subst hq
    simp [specStringTruthy, hrun]
  · subst hq
    simp [specStringTruthy, hrun]

theorem shape_of_specStringTruthy (s : List Char) (h : specStringTruthy s = true) :
    ∃ q zs d rest, s = q ++ (zs ++ d :: rest) ∧ (q = [] ∨ q = ['-']) ∧
      (∀ z ∈ zs, z = '0') ∧ ('1' ≤ d ∧ d ≤ '9') := by
  unfold specStringTruthy at h
  simp only [Bool.or_eq_true] at h
  rcases h with h | h
  · obtain ⟨zs, d, rest, ht, hz, hd⟩ := zeros_of_digitRunNonzero s h
    exact ⟨[], zs, d, rest, by simp [ht], Or.inl rfl, hz, hd⟩
  · split at h
    · rename_i t
      obtain ⟨zs, d, rest, ht, hz, hd⟩ := zeros_of_digitRunNonzero t h
      exact ⟨['-'], zs, d, rest, by simp [ht], Or.inr rfl, hz, hd⟩
    · simp at h

/-- The regular expression of `ConvertToBool` decides the specification's
description of a truthy string. -/
theorem MatchString_truthyPattern_eq (s : String) :
    MatchString truthyPattern s = specStringTruthy s.data := by
  rw [Bool.eq_iff_iff, MatchString_truthyPattern_iff]
  constructor
  · rintro ⟨u, v, hs, hm⟩
    obtain ⟨q, zs, d, rest, hu, hq, hz, hd⟩ := truthyPattern_matches_shape hm
    have : s.data = q ++ (zs ++ d :: (rest ++ v)) := by simp [hs, hu]
    rw [this]
    exact specStringTruthy_of_shape q zs d _ hq hz hd
  · intro h
    obtain ⟨q, zs, d, rest, hs, hq, hz, hd⟩ := shape_of_specStringTruthy s.data h
    exact ⟨q ++ (zs ++ [d]), rest, by simp [hs], truthyPattern_matches_of_shape q zs d hq hz hd⟩

/-- C5. String truthiness is a leading-integer parse: for every string `s`,
`ConvertToBool (String s)` returns a boolean, and it is true iff `s`, after at
most one leading `-`, begins with a run of ASCII digits whose maximal run
holds a digit other than `0` (what follows the run is ignored); in particular
`"0"` is false, `"1"` is true and `"a"` is false. -/
theorem C5_string_truthiness (s : String) :
    ConvertToBool (.string s) = .ok (specStringTruthy s.data) ∧
    ConvertToBool (.string "0") = .ok false ∧
    ConvertToBool (.string "1") = .ok true ∧
    ConvertToBool (.string "a") = .ok false := by
  refine ⟨?_, by decide, by decide, by decide⟩
  simp [ConvertToBool, MatchString_truthyPattern_eq]

/-- A decimal is `IsZero` exactly when the number it denotes is zero. -/
theorem MyDecimal.IsZero_iff (d : MyDecimal) : d.IsZero = true ↔ d.toRat = 0 := by
  have hpow : ((10 : ℚ) ^ d.scale) ≠ 0 := by positivity
  unfold MyDecimal.IsZero MyDecimal.toRat
  cases d.negative <;> simp [hpow]

/-- C6. Exact-valued kinds are truthy iff nonzero: `ConvertToBool` returns
false for Null, true for an Int64 or UInt64 value iff its payload is not 0,
and true for a Decimal iff the number it denotes is not zero. Hence
`AND(Int64 1, Decimal 0.4)` is true, although the Float64 nearest to `0.4`
is false. -/
theorem C6_exact_kinds_truthiness (i : Int) (u : Nat) (d : MyDecimal) :
    ConvertToBool .null = .ok false ∧
    ConvertToBool (.int64 i) = .ok (decide (i ≠ 0)) ∧
    ConvertToBool (.uint64 u) = .ok (decide (u ≠ 0)) ∧
    ConvertToBool (.decimal d) = .ok (decide (d.toRat ≠ 0)) ∧
    (MyDecimal.mk false 4 1).toRat = 4 / 10 ∧
    LogicAnd (.int64 1) (.decimal (MyDecimal.mk false 4 1)) = .ok (.int64 1, none) ∧
    ConvertToBool (.float64 (.fin 3602879701896397 53)) = .ok false := by
  refine ⟨rfl, ?_, ?_, ?_, ?_, by decide, by decide⟩
  · by_cases h : i = 0 <;> simp [ConvertToBool, h]
  · by_cases h : u = 0 <;> simp [ConvertToBool, h]
  · have h := MyDecimal.IsZero_iff d
    cases hz : d.IsZero <;> simp [ConvertToBool, hz] <;> simp [hz] at h <;> simp [h]
  · norm_num [MyDecimal.toRat]

/-- Go negation on `int` is an involution. -/
theorem GoInt.neg_neg (i : GoInt) : i.neg.neg = i := by
  obtain ⟨v, hv⟩ := i
  apply Subtype.ext
  simp only [GoInt.neg, GoInt.ofInt, wrap64]
  omega

/-- Go negation of a positive `int` is the negative number. -/
theorem GoInt.neg_val_of_pos (i : GoInt) (h : 0 < i.val) : i.neg.val = -i.val := by
  obtain ⟨v, hv⟩ := i
  simp only [GoInt.neg, GoInt.ofInt, wrap64] at h ⊢
  omega

/-- C7. Primary path of `compare`: when the library's direct comparison of `a`
with `b` succeeds with the signed result `r`, `compare a b` returns exactly
`r`; no fallback rule is consulted, since every library that answers the
direct comparison in the same way gives the same result, whatever it answers
elsewhere. -/
theorem C7_compare_primary (L : TypesLib) (a b : Value) (r : GoInt)
    (h : L.CompareDatum a b = .ok r) :
    compare L a b = .ok r ∧
    ∀ M : TypesLib, M.CompareDatum a b = L.CompareDatum a b → compare M a b = .ok r := by
  constructor
  · simp [compare, h]
  · intro M hM
    rw [h] at hM
    simp [compare, hM]

/-- Witness of C7 at `a = Int64 2`, `b = Int64 1` with `demoLib`. -/
theorem C7_compare_primary_witness :
    compare demoLib (.int64 2) (.int64 1) = .ok (GoInt.ofInt 1) ∧
    ∀ M : TypesLib, M.CompareDatum (.int64 2) (.int64 1)
        = demoLib.CompareDatum (.int64 2) (.int64 1) →
      compare M (.int64 2) (.int64 1) = .ok (GoInt.ofInt 1) :=
  C7_compare_primary demoLib (.int64 2) (.int64 1) (GoInt.ofInt 1) (by decide)

/-- Rule 1 of `compare`: a numeric left operand against a string. -/
theorem compare_numeric_string (L : TypesLib) (n : Value) (s e : String)
    (hn : n.Kind ∈ numericKinds) (hfail : L.CompareDatum n (.string s) = .error e) :
    compare L n (.string s) =
      match L.CompareDatum n (.int64 0) with
      | .ok i => .ok i
      | .error _ => .error (.compareErr n (.string s) e) := by
  cases n with
  | int64 i => simp [compare, hfail, Value.Kind]
  | uint64 u => simp [compare, hfail, Value.Kind]
  | float32 f => simp [compare, hfail, Value.Kind]
  | float64 f => simp [compare, hfail, Value.Kind]
  | other k => cases k <;> simp [numericKinds, Value.Kind, OtherKind.toKind] at hn
  | _ => simp [numericKinds, Value.Kind] at hn

/-- Rule 3 of `compare`: a string against a numeric right operand. -/
theorem compare_string_numeric (L : TypesLib) (n : Value) (s e : String)
    (hn : n.Kind ∈ numericKinds) (hfail : L.CompareDatum (.string s) n = .error e) :
    compare L (.string s) n =
      match L.CompareDatum n (.int64 0) with
      | .ok i => .ok i.neg
      | .error _ => .error (.compareErr (.string s) n e) := by
  cases n with
  | int64 i => simp [compare, hfail, Value.Kind]
  | uint64 u => simp [compare, hfail, Value.Kind]
  | float32 f => simp [compare, hfail, Value.Kind]
  | float64 f => simp [compare, hfail, Value.Kind]
  | other k => cases k <;> simp [numericKinds, Value.Kind, OtherKind.toKind] at hn
  | _ => simp [numericKinds, Value.Kind] at hn

/-- C8. Fallback rule 1: for a numeric value `n` (Float32, Float64, Int64 or
UInt64) and strings `s1`, `s2` whose direct comparison with `n` fails, if
comparing `n` against `Int64 0` succeeds with `i` then `compare n s1` returns
`i`; so the result does not depend on the content of the string:
`compare n s1 = compare n s2`. -/
theorem C8_fallback_numeric_string (L : TypesLib) (n : Value) (s1 s2 e1 e2 : String)
    (i : GoInt) (hn : n.Kind ∈ numericKinds)
    (hfail1 : L.CompareDatum n (.string s1) = .error e1)
    (hfail2 : L.CompareDatum n (.string s2) = .error e2)
    (hzero : L.CompareDatum n (.int64 0) = .ok i) :
    compare L n (.string s1) = .ok i ∧
    compare L n (.string s1) = compare L n (.string s2) := by
  rw [compare_numeric_string L n s1 e1 hn hfail1, compare_numeric_string L n s2 e2 hn hfail2,
    hzero]
  exact ⟨rfl, rfl⟩

/-- Witness of C8 at `n = Float64 1`, `s1 = "a"`, `s2 = "xyz"` with `demoLib`. -/
theorem C8_fallback_numeric_string_witness :
    compare demoLib (.float64 (.fin 1 0)) (.string "a") = .ok (GoInt.ofInt 1) ∧
    compare demoLib (.float64 (.fin 1 0)) (.string "a")
      = compare demoLib (.float64 (.fin 1 0)) (.string "xyz") :=
  C8_fallback_numeric_string demoLib (.float64 (.fin 1 0)) "a" "xyz" "cannot compare"
    "cannot compare" (GoInt.ofInt 1) (by decide) (by decide) (by decide) (by decide)

/-- C9. Comparison symmetry under fallback: for a numeric `n` and a string `s`
whose direct comparison fails in both orders, if comparing `n` with `Int64 0`
succeeds with `i`, then `compare n s = i`, `compare s n = -i` (Go negation),
hence `compare n s = -compare s n`. When moreover `i` is positive, as for
`s = "a"` and `n = Float64 1`, `compare s n` is negative and `NE(s, n)` is
true. -/
theorem C9_fallback_symmetry (L : TypesLib) (n : Value) (s e1 e2 : String) (i : GoInt)
    (hn : n.Kind ∈ numericKinds)
    (hfail1 : L.CompareDatum n (.string s) = .error e1)
    (hfail2 : L.CompareDatum (.string s) n = .error e2)
    (hzero : L.CompareDatum n (.int64 0) = .ok i) :
    (∃ r, compare L (.string s) n = .ok r ∧ compare L n (.string s) = .ok r.neg ∧
      r = i.neg ∧ (0 < i.val → r.val < 0)) ∧
    (0 < i.val → Ne L (.string s) n = .ok (.int64 1, none)) := by
  have h1 := compare_numeric_string L n s e1 hn hfail1
  have h2 := compare_string_numeric L n s e2 hn hfail2
  rw [hzero] at h1 h2
  simp only at h1 h2
  have hneg : 0 < i.val → i.neg.val < 0 := by
    intro hpos
    rw [GoInt.neg_val_of_pos i hpos]
    omega
  refine ⟨⟨i.neg, h2, ?_, rfl, hneg⟩, ?_⟩
  · rw [h1, GoInt.neg_neg]
  · intro hpos
    have hnn : n.Kind ≠ .KindNull := by
      intro hk
      rw [hk] at hn
      simp [numericKinds] at hn
    have hne : i.neg.val ≠ 0 := by
      have := hneg hpos
      omega
    have hsn : (Value.string s).Kind ≠ .KindNull := by simp [Value.Kind]
    simp [Ne, relational, isNullPair, hsn, hnn, h2, SetValue, hne]

/-- Witness of C9 at `s = "a"`, `n = Float64 1` with `demoLib`, where comparing
`n` with zero gives `1`. -/
theorem C9_fallback_symmetry_witness :
    (∃ r, compare demoLib (.string "a") (.float64 (.fin 1 0)) = .ok r ∧
      compare demoLib (.float64 (.fin 1 0)) (.string "a") = .ok r.neg ∧
      r = (GoInt.ofInt 1).neg ∧ (0 < (GoInt.ofInt 1).val → r.val < 0)) ∧
    (0 < (GoInt.ofInt 1).val →
      Ne demoLib (.string "a") (.float64 (.fin 1 0)) = .ok (.int64 1, none)) :=
  C9_fallback_symmetry demoLib (.float64 (.fin 1 0)) "a" "cannot compare" "cannot compare"
    (GoInt.ofInt 1) (by decide) (by decide) (by decide) (by decide)

/-- C10. Fallback rule 2 order: for a datetime value `a` and a string `b` whose
direct comparison fails, `compare a b` converts `b` to a timestamp, then to a
date, then to a float, in that order; when `i` is the first conversion that
succeeds and comparing `a` against `i` gives `r`, `compare a b` returns `r`. -/
theorem C10_fallback_datetime_string (L : TypesLib) (t : MysqlTime) (s e : String)
    (i : Value) (r : GoInt)
    (hfail : L.CompareDatum (.time t) (.string s) = .error e)
    (hconv : firstSuccessfulConversion L (.string s) = some i)
    (hcmp : L.CompareDatum (.time t) i = .ok r) :
    compare L (.time t) (.string s) = .ok r := by
  unfold firstSuccessfulConversion at hconv
  simp only [compare, hfail, Value.Kind, convertThenCompare]
  cases h1 : L.ConvertTo (.string s) .TypeTimestamp with
  | ok i1 =>
    simp only [h1, Option.some.injEq] at hconv
    subst hconv
    simp [hcmp]
  | error e1 =>
    simp only [h1] at hconv
    cases h2 : L.ConvertTo (.string s) .TypeDate with
    | ok i2 =>
      simp only [h2, Option.some.injEq] at hconv
      subst hconv
      simp [hcmp]
    | error e2 =>
      simp only [h2] at hconv
      cases h3 : L.ConvertTo (.string s) .TypeFloat with
      | ok i3 =>
        simp only [h3, Option.some.injEq] at hconv
        subst hconv
        simp [hcmp]
      | error e3 => simp [h3] at hconv

/-- Witness of C10 with `demoLib`: `"20200102"` is no timestamp but a date,
and the datetime `2020-01-01 00:00:00` is before it. -/
theorem C10_fallback_datetime_string_witness :
    compare demoLib (.time ⟨.Datetime, 2020, 1, 1, 0, 0, 0, 0⟩) (.string "20200102")
      = .ok (GoInt.ofInt (-1)) :=
  C10_fallback_datetime_string demoLib ⟨.Datetime, 2020, 1, 1, 0, 0, 0, 0⟩ "20200102"
    "cannot compare" (.time ⟨.Date, 2020, 1, 2, 0, 0, 0, 0⟩) (GoInt.ofInt (-1))
    (by decide) (by decide) (by decide)

/-- A conversion that fails leaves nothing to compare. -/
theorem convertThenCompare_of_error (L : TypesLib) (x s : Value) (tp : FieldTp) (e : String)
    (h : L.ConvertTo s tp = .error e) : convertThenCompare L x s tp = none := by
  simp [convertThenCompare, h]

/-- Rule 2 of `compare`, a time against a string: the first conversion step
that yields a result decides, and `0` is returned when none does. -/
theorem compare_time_string (L : TypesLib) (t : MysqlTime) (s e : String)
    (hfail : L.CompareDatum (.time t) (.string s) = .error e) :
    compare L (.time t) (.string s) =
      match convertThenCompare L (.time t) (.string s) .TypeTimestamp with
      | some r => .ok r
      | none =>
        match convertThenCompare L (.time t) (.string s) .TypeDate with
        | some r => .ok r
        | none =>
          match convertThenCompare L (.time t) (.string s) .TypeFloat with
          | some r => .ok r
          | none => .ok (GoInt.ofInt 0) := by
  simp [compare, hfail, Value.Kind]

/-- Rule 4 of `compare`, a string against a time: the first conversion step
that yields a result decides, negated; when none does, control leaves the
`switch` and reaches the panic. -/
theorem compare_string_time (L : TypesLib) (t : MysqlTime) (s e : String)
    (hfail : L.CompareDatum (.string s) (.time t) = .error e) :
    compare L (.string s) (.time t) =
      match convertThenCompare L (.time t) (.string s) .TypeTimestamp with
      | some r => .ok r.neg
      | none =>
        match convertThenCompare L (.time t) (.string s) .TypeDate with
        | some r => .ok r.neg
        | none =>
          match convertThenCompare L (.time t) (.string s) .TypeFloat with
          | some r => .ok r.neg
          | none => .error (.compareErr (.string s) (.time t) e) := by
  simp [compare, hfail, Value.Kind]

/-- C11. Fallback rule 2 exhaustion: for a datetime value `a` and a string `b`
whose direct comparison fails and for which converting `b` to a timestamp, to
a date and to a float all fail, `compare a b` returns `0` (equal) and does not
panic. -/
theorem C11_rule2_exhaustion (L : TypesLib) (t : MysqlTime) (s e e1 e2 e3 : String)
    (hfail : L.CompareDatum (.time t) (.string s) = .error e)
    (h1 : L.ConvertTo (.string s) .TypeTimestamp = .error e1)
    (h2 : L.ConvertTo (.string s) .TypeDate = .error e2)
    (h3 : L.ConvertTo (.string s) .TypeFloat = .error e3) :
    compare L (.time t) (.string s) = .ok (GoInt.ofInt 0) ∧ (GoInt.ofInt 0).val = 0 := by
  rw [compare_time_string L t s e hfail, convertThenCompare_of_error L _ _ _ e1 h1,
    convertThenCompare_of_error L _ _ _ e2 h2, convertThenCompare_of_error L _ _ _ e3 h3]
  exact ⟨rfl, by decide⟩

/-- Witness of C11 with `demoLib` at the datetime `2020-01-01 00:00:00` and
the string `"abc"`. -/
theorem C11_rule2_exhaustion_witness :
    compare demoLib (.time ⟨.Datetime, 2020, 1, 1, 0, 0, 0, 0⟩) (.string "abc")
      = .ok (GoInt.ofInt 0) ∧ (GoInt.ofInt 0).val = 0 :=
  C11_rule2_exhaustion demoLib ⟨.Datetime, 2020, 1, 1, 0, 0, 0, 0⟩ "abc" "cannot compare"
    "invalid format" "invalid format" "invalid format"
    (by decide) (by decide) (by decide) (by decide)

/-- C12. Fallback rule 4 exhaustion, evaluated: with `demoLib`, the string
`"abc"` and the datetime `2020-01-01 00:00:00` fail the direct comparison and
`"abc"` converts to no timestamp, date or float. In the (DATETIME, STRING)
order `compare` returns `0`, but in the (STRING, DATETIME) order it does not
return `0`: it panics with the error of the direct comparison. -/
theorem C12_rule4_exhaustion_panics :
    demoLib.CompareDatum (.string "abc") (.time ⟨.Datetime, 2020, 1, 1, 0, 0, 0, 0⟩)
      = .error "cannot compare" ∧
    demoLib.ConvertTo (.string "abc") .TypeTimestamp = .error "invalid format" ∧
    demoLib.ConvertTo (.string "abc") .TypeDate = .error "invalid format" ∧
    demoLib.ConvertTo (.string "abc") .TypeFloat = .error "invalid format" ∧
    compare demoLib (.time ⟨.Datetime, 2020, 1, 1, 0, 0, 0, 0⟩) (.string "abc")
      = .ok (GoInt.ofInt 0) ∧
    compare demoLib (.string "abc") (.time ⟨.Datetime, 2020, 1, 1, 0, 0, 0, 0⟩)
      = .error (.compareErr (.string "abc") (.time ⟨.Datetime, 2020, 1, 1, 0, 0, 0, 0⟩)
          "cannot compare") := by
  decide

/-- Rule 4 exhaustion for every library: a string against a time whose direct
comparison fails and whose three conversions fail ends in the panic. -/
theorem compare_string_time_exhausted (L : TypesLib) (t : MysqlTime) (s e e1 e2 e3 : String)
    (hfail : L.CompareDatum (.string s) (.time t) = .error e)
    (h1 : L.ConvertTo (.string s) .TypeTimestamp = .error e1)
    (h2 : L.ConvertTo (.string s) .TypeDate = .error e2)
    (h3 : L.ConvertTo (.string s) .TypeFloat = .error e3) :
    compare L (.string s) (.time t) = .error (.compareErr (.string s) (.time t) e) := by
  rw [compare_string_time L t s e hfail, convertThenCompare_of_error L _ _ _ e1 h1,
    convertThenCompare_of_error L _ _ _ e2 h2, convertThenCompare_of_error L _ _ _ e3 h3]

/-- C13. Incomparable kinds fail loudly: for values `a`, `b` whose direct
comparison fails with `e` and whose kind pair is none of (numeric, String),
(DateTime, String), (String, numeric), (String, DateTime), with numeric one of
Float32, Float64, Int64, UInt64, `compare a b` returns no integer: it panics,
and the panic carries both operands and `e`; e.g. a Decimal against a String. -/
theorem C13_incomparable_kinds_panic (L : TypesLib) (a b : Value) (e : String)
    (hfail : L.CompareDatum a b = .error e)
    (h1 : ¬ (a.Kind ∈ numericKinds ∧ b.Kind = .KindString))
    (h2 : ¬ (a.Kind = .KindMysqlTime ∧ b.Kind = .KindString))
    (h3 : ¬ (a.Kind = .KindString ∧ b.Kind ∈ numericKinds))
    (h4 : ¬ (a.Kind = .KindString ∧ b.Kind = .KindMysqlTime)) :
    compare L a b = .error (.compareErr a b e) ∧
    ∀ d s, L.CompareDatum (.decimal d) (.string s) = .error e →
      compare L (.decimal d) (.string s) = .error (.compareErr (.decimal d) (.string s) e) := by
  constructor
  · cases a with
    | other k =>
      cases k <;> simp [compare, hfail, Value.Kind, OtherKind.toKind]
    | null => simp [compare, hfail, Value.Kind]
    | decimal d => simp [compare, hfail, Value.Kind]
    | int64 i =>
      cases b with
      | other k => cases k <;> simp [compare, hfail, Value.Kind, OtherKind.toKind]
      | string s => simp [numericKinds, Value.Kind] at h1
      | _ => simp [compare, hfail, Value.Kind]
    | uint64 i =>
      cases b with
      | other k => cases k <;> simp [compare, hfail, Value.Kind, OtherKind.toKind]
      | string s => simp [numericKinds, Value.Kind] at h1
      | _ => simp [compare, hfail, Value.Kind]
    | float32 i =>
      cases b with
      | other k => cases k <;> simp [compare, hfail, Value.Kind, OtherKind.toKind]
      | string s => simp [numericKinds, Value.Kind] at h1
      | _ => simp [compare, hfail, Value.Kind]
    | float64 i =>
      cases b with
      | other k => cases k <;> simp [compare, hfail, Value.Kind, OtherKind.toKind]
      | string s => simp [numericKinds, Value.Kind] at h1
      | _ => simp [compare, hfail, Value.Kind]
    | time t =>
      cases b with
      | other k => cases k <;> simp [compare, hfail, Value.Kind, OtherKind.toKind]
      | string s => simp [Value.Kind] at h2
      | _ => simp [compare, hfail, Value.Kind]
    | string s =>
      cases b with
      | other k => cases k <;> simp [compare, hfail, Value.Kind, OtherKind.toKind]
      | time t => simp [Value.Kind] at h4
      | int64 _ => simp [numericKinds, Value.Kind] at h3
      | uint64 _ => simp [numericKinds, Value.Kind] at h3
      | float32 _ => simp [numericKinds, Value.Kind] at h3
      | float64 _ => simp [numericKinds, Value.Kind] at h3
      | _ => simp [compare, hfail, Value.Kind]
  · intro d s hd
    simp [compare, hd, Value.Kind]

/-- Witness of C13 with `demoLib` at the Decimal `0.4` and the String `"abc"`. -/
theorem C13_incomparable_kinds_panic_witness :
    compare demoLib (.decimal ⟨false, 4, 1⟩) (.string "abc")
      = .error (.compareErr (.decimal ⟨false, 4, 1⟩) (.string "abc") "cannot compare") ∧
    ∀ d s, demoLib.CompareDatum (.decimal d) (.string s) = .error "cannot compare" →
      compare demoLib (.decimal d) (.string s)
        = .error (.compareErr (.decimal d) (.string s) "cannot compare") :=
  C13_incomparable_kinds_panic demoLib (.decimal ⟨false, 4, 1⟩) (.string "abc")
    "cannot compare" (by decide) (by decide) (by decide) (by decide) (by decide)

/-- C17. Fallback rule 4 negation: for a string `a` and a datetime value `b`
whose direct comparison fails in both orders, if one of the three conversions
of `a` (timestamp, date, float) succeeds with a successful comparison of `b`
against the converted value, then both `compare b a` and `compare a b`
return, and `compare a b = -compare b a` (Go negation). -/
theorem C17_rule4_negation (L : TypesLib) (t : MysqlTime) (s e1 e2 : String)
    (tp : FieldTp) (i : Value) (r0 : GoInt)
    (hfail1 : L.CompareDatum (.string s) (.time t) = .error e1)
    (hfail2 : L.CompareDatum (.time t) (.string s) = .error e2)
    (hconv : L.ConvertTo (.string s) tp = .ok i)
    (hcmp : L.CompareDatum (.time t) i = .ok r0) :
    ∃ r, compare L (.time t) (.string s) = .ok r ∧
      compare L (.string s) (.time t) = .ok r.neg := by
  rw [compare_time_string L t s e2 hfail2, compare_string_time L t s e1 hfail1]
  have hstep : convertThenCompare L (.time t) (.string s) tp = some r0 := by
    simp [convertThenCompare, hconv, hcmp]
  cases hts : convertThenCompare L (.time t) (.string s) .TypeTimestamp with
  | some r => exact ⟨r, rfl, rfl⟩
  | none =>
    cases hd : convertThenCompare L (.time t) (.string s) .TypeDate with
    | some r => exact ⟨r, rfl, rfl⟩
    | none =>
      cases hf : convertThenCompare L (.time t) (.string s) .TypeFloat with
      | some r => exact ⟨r, rfl, rfl⟩
      | none =>
        cases tp with
        | TypeTimestamp => rw [hts] at hstep; cases hstep
        | TypeDate => rw [hd] at hstep; cases hstep
        | TypeFloat => rw [hf] at hstep; cases hstep

/-- Witness of C17 with `demoLib` at the string `"20200102"`, which converts
to a date, and the datetime `2020-01-01 00:00:00`. -/
theorem C17_rule4_negation_witness :
    ∃ r, compare demoLib (.time ⟨.Datetime, 2020, 1, 1, 0, 0, 0, 0⟩) (.string "20200102")
        = .ok r ∧
      compare demoLib (.string "20200102") (.time ⟨.Datetime, 2020, 1, 1, 0, 0, 0, 0⟩)
        = .ok r.neg :=
  C17_rule4_negation demoLib ⟨.Datetime, 2020, 1, 1, 0, 0, 0, 0⟩ "20200102"
    "cannot compare" "cannot compare" .TypeDate (.time ⟨.Date, 2020, 1, 2, 0, 0, 0, 0⟩)
    (GoInt.ofInt (-1)) (by decide) (by decide) (by decide) (by decide)

/-- C14. Unsigned zero versus negative literal: with the integer comparison of
the specification, whatever the library answers elsewhere,
`compare (UInt64 0) (Int64 (-1))` is strictly positive, so `EQ` of the two is
false and `LT` of the two is false. -/
theorem C14_unsigned_zero_vs_negative (L : TypesLib) :
    (∃ r, compare (specIntegerLib L) (.uint64 0) (.int64 (-1)) = .ok r ∧ 0 < r.val) ∧
    Eq (specIntegerLib L) (.uint64 0) (.int64 (-1)) = .ok (.int64 0, none) ∧
    Lt (specIntegerLib L) (.uint64 0) (.int64 (-1)) = .ok (.int64 0, none) := by
  have hc : compare (specIntegerLib L) (.uint64 0) (.int64 (-1)) = .ok (GoInt.ofInt 1) := by
    simp [compare, specIntegerLib, specCompareIntegers, signOf]
  have hv : (GoInt.ofInt 1).val = 1 := by decide
  refine ⟨⟨_, hc, by rw [hv]; decide⟩, ?_, ?_⟩
  · simp [Eq, relational, isNullPair, Value.Kind, hc, hv, SetValue]
  · simp [Lt, relational, isNullPair, Value.Kind, hc, hv, SetValue]

/-- C15. `ConvertToBool` fails exactly on unhandled kinds: every value either
has one of the kinds Null, Int64, UInt64, Float32, Float64, String, Decimal
and `ConvertToBool` returns a boolean, or has another kind and
`ConvertToBool` panics with "unreachable kind" and that kind; in particular
it panics on every DateTime, Timestamp or Date value. -/
theorem C15_unhandled_kinds (v : Value) (t : MysqlTime) :
    ((v.Kind ∈ truthinessKinds ∧ ∃ x, ConvertToBool v = .ok x) ∨
      (v.Kind ∉ truthinessKinds ∧
        ConvertToBool v = .error (.unreachableKind v.Kind.code))) ∧
    ConvertToBool (.time t) = .error (.unreachableKind 13) := by
  refine ⟨?_, rfl⟩
  cases v with
  | time t => exact Or.inr ⟨by simp [truthinessKinds, Value.Kind], rfl⟩
  | other k =>
    exact Or.inr ⟨by cases k <;> simp [truthinessKinds, Value.Kind, OtherKind.toKind], rfl⟩
  | null => exact Or.inl ⟨by simp [truthinessKinds, Value.Kind], _, rfl⟩
  | int64 i => exact Or.inl ⟨by simp [truthinessKinds, Value.Kind], _, rfl⟩
  | uint64 i => exact Or.inl ⟨by simp [truthinessKinds, Value.Kind], _, rfl⟩
  | float32 i => exact Or.inl ⟨by simp [truthinessKinds, Value.Kind], _, rfl⟩
  | float64 i => exact Or.inl ⟨by simp [truthinessKinds, Value.Kind], _, rfl⟩
  | string i => exact Or.inl ⟨by simp [truthinessKinds, Value.Kind], _, rfl⟩
  | decimal i => exact Or.inl ⟨by simp [truthinessKinds, Value.Kind], _, rfl⟩

/-- A kind without a `case` in `ConvertToBool` makes it panic. -/
theorem ConvertToBool_error_of_kind (a : Value) (h : a.Kind ∉ truthinessKinds) :
    ConvertToBool a = .error (.unreachableKind a.Kind.code) := by
  cases a with
  | time t => rfl
  | other k => rfl
  | _ => simp [truthinessKinds, Value.Kind] at h

/-- Counterexample to C16: `Int64 0`, `Int64 1` and a datetime value are not
Null, and the datetime has no case in `ConvertToBool`; yet `AND(Int64 0, t)`
returns false and `OR(Int64 1, t)` returns true, with a nil error, because the
right operand is never evaluated. -/
theorem C16_counterexample :
    (Value.int64 0).Kind ≠ .KindNull ∧ (Value.int64 1).Kind ≠ .KindNull ∧
    (Value.time ⟨.Datetime, 2020, 1, 1, 0, 0, 0, 0⟩).Kind ≠ .KindNull ∧
    (Value.time ⟨.Datetime, 2020, 1, 1, 0, 0, 0, 0⟩).Kind ∉ truthinessKinds ∧
    LogicAnd (.int64 0) (.time ⟨.Datetime, 2020, 1, 1, 0, 0, 0, 0⟩) = .ok (.int64 0, none) ∧
    LogicOr (.int64 1) (.time ⟨.Datetime, 2020, 1, 1, 0, 0, 0, 0⟩) = .ok (.int64 1, none) := by
  decide

/-- C16, amended. For non-Null operands `a`, `b` of which at least one has a
kind without a case in `ConvertToBool`: XOR always panics; AND panics unless
the left operand is handled and false, in which case it returns false; OR
panics unless the left operand is handled and true, in which case it returns
true. Every such panic is the "unreachable kind" one. -/
theorem C16_unhandled_operand (a b : Value)
    (hna : a.Kind ≠ .KindNull) (hnb : b.Kind ≠ .KindNull)
    (h : a.Kind ∉ truthinessKinds ∨ b.Kind ∉ truthinessKinds) :
    (∃ k, LogicXor a b = .error (.unreachableKind k)) ∧
    ((ConvertToBool a = .ok false ∧ LogicAnd a b = .ok (.int64 0, none)) ∨
      (ConvertToBool a ≠ .ok false ∧ ∃ k, LogicAnd a b = .error (.unreachableKind k))) ∧
    ((ConvertToBool a = .ok true ∧ LogicOr a b = .ok (.int64 1, none)) ∨
      (ConvertToBool a ≠ .ok true ∧ ∃ k, LogicOr a b = .error (.unreachableKind k))) := by
  by_cases ha : a.Kind ∈ truthinessKinds
  · have hb : b.Kind ∉ truthinessKinds := by
      rcases h with h | h
      · exact absurd ha h
      · exact h
    obtain ⟨x, hx⟩ := ConvertToBool_ok_of_kind a ha
    have hy := ConvertToBool_error_of_kind b hb
    refine ⟨⟨_, by simp [LogicXor, isNullPair, hna, hnb, hx, hy]; rfl⟩, ?_, ?_⟩
    · cases x with
      | false => exact Or.inl ⟨hx, by simp [LogicAnd, isNullPair, hna, hnb, hx, SetValue]⟩
      | true =>
        exact Or.inr ⟨by simp [hx], _, by simp [LogicAnd, isNullPair, hna, hnb, hx, hy]; rfl⟩
    · cases x with
      | true => exact Or.inl ⟨hx, by simp [LogicOr, isNullPair, hna, hnb, hx, SetValue]⟩
      | false =>
        exact Or.inr ⟨by simp [hx], _, by simp [LogicOr, isNullPair, hna, hnb, hx, hy]; rfl⟩
  · have hx := ConvertToBool_error_of_kind a ha
    refine ⟨⟨_, by simp [LogicXor, isNullPair, hna, hnb, hx]; rfl⟩, ?_, ?_⟩
    · exact Or.inr ⟨by simp [hx], _, by simp [LogicAnd, isNullPair, hna, hnb, hx]; rfl⟩
    · exact Or.inr ⟨by simp [hx], _, by simp [LogicOr, isNullPair, hna, hnb, hx]; rfl⟩

/-- Witness of C16, amended, at `a = Int64 0` and a datetime `b`. -/
theorem C16_unhandled_operand_witness :
    (∃ k, LogicXor (.int64 0) (.time ⟨.Datetime, 2020, 1, 1, 0, 0, 0, 0⟩)
      = .error (.unreachableKind k)) ∧
    ((ConvertToBool (.int64 0) = .ok false ∧
        LogicAnd (.int64 0) (.time ⟨.Datetime, 2020, 1, 1, 0, 0, 0, 0⟩)
          = .ok (.int64 0, none)) ∨
      (ConvertToBool (.int64 0) ≠ .ok false ∧
        ∃ k, LogicAnd (.int64 0) (.time ⟨.Datetime, 2020, 1, 1, 0, 0, 0, 0⟩)
          = .error (.unreachableKind k))) ∧
    ((ConvertToBool (.int64 0) = .ok true ∧
        LogicOr (.int64 0) (.time ⟨.Datetime, 2020, 1, 1, 0, 0, 0, 0⟩)
          = .ok (.int64 1, none)) ∨
      (ConvertToBool (.int64 0) ≠ .ok true ∧
        ∃ k, LogicOr (.int64 0) (.time ⟨.Datetime, 2020, 1, 1, 0, 0, 0, 0⟩)
          = .error (.unreachableKind k))) :=
  C16_unhandled_operand (.int64 0) (.time ⟨.Datetime, 2020, 1, 1, 0, 0, 0, 0⟩)
    (by decide) (by decide) (by decide)

/-- The Null check of the operators looks at the two kinds. -/
theorem isNullPair_iff (a b : Value) :
    isNullPair a b = true ↔ (a.Kind = .KindNull ∨ b.Kind = .KindNull) := by
  simp [isNullPair]

/-- A boolean stored by `SetValue` is `Int64 0` or `Int64 1`, never Null. -/
theorem SetValue_cases (x : Bool) :
    (SetValue x = .int64 0 ∨ SetValue x = .int64 1) ∧ SetValue x ≠ .null := by
  cases x <;> simp [SetValue]

theorem resultInDomain_null (a b : Value) (h : isNullPair a b = true) :
    resultInDomain a b .null none :=
  ⟨rfl, Or.inl rfl, fun _ => (isNullPair_iff a b).mp h, fun _ => rfl⟩

theorem resultInDomain_bool (a b : Value) (x : Bool) (h : ¬ isNullPair a b = true) :
    resultInDomain a b (SetValue x) none := by
  refine ⟨rfl, Or.inr (SetValue_cases x).1, ?_, ?_⟩
  · intro hv
    exact absurd hv (SetValue_cases x).2
  · intro hk
    exact absurd ((isNullPair_iff a b).mpr hk) h

theorem relational_domain (pred : Int → Bool) (L : TypesLib) (a b v : Value)
    (err : Option String) (h : relational pred L a b = .ok (v, err)) :
    resultInDomain a b v err := by
  unfold relational at h
  by_cases hn : isNullPair a b = true
  · simp only [hn, if_true, Except.ok.injEq, Prod.mk.injEq] at h
    obtain ⟨hv, he⟩ := h
    subst hv he
    exact resultInDomain_null a b hn
  · simp only [hn] at h
    cases hc : compare L a b with
    | error p => simp [hc] at h
    | ok r =>
      simp only [hc, Bool.false_eq_true, if_false, Except.ok.injEq, Prod.mk.injEq] at h
      obtain ⟨hv, he⟩ := h
      subst hv he
      exact resultInDomain_bool a b _ hn

theorem LogicXor_domain (a b v : Value) (err : Option String)
    (h : LogicXor a b = .ok (v, err)) : resultInDomain a b v err := by
  unfold LogicXor at h
  by_cases hn : isNullPair a b = true
  · simp only [hn, if_true, Except.ok.injEq, Prod.mk.injEq] at h
    obtain ⟨hv, he⟩ := h
    subst hv he
    exact resultInDomain_null a b hn
  · simp only [hn] at h
    cases hx : ConvertToBool a with
    | error p => simp [hx] at h
    | ok x =>
      cases hy : ConvertToBool b with
      | error p => simp [hx, hy] at h
      | ok y =>
        simp only [hx, hy, Bool.false_eq_true, if_false, Except.ok.injEq, Prod.mk.injEq] at h
        obtain ⟨hv, he⟩ := h
        subst hv he
        exact resultInDomain_bool a b _ hn

theorem LogicAnd_domain (a b v : Value) (err : Option String)
    (h : LogicAnd a b = .ok (v, err)) : resultInDomain a b v err := by
  unfold LogicAnd at h
  by_cases hn : isNullPair a b = true
  · simp only [hn, if_true, Except.ok.injEq, Prod.mk.injEq] at h
    obtain ⟨hv, he⟩ := h
    subst hv he
    exact resultInDomain_null a b hn
  · simp only [hn] at h
    cases hx : ConvertToBool a with
    | error p => simp [hx] at h
    | ok x =>
      cases x with
      | false =>
        simp only [hx, Bool.false_eq_true, if_false, Except.ok.injEq, Prod.mk.injEq] at h
        obtain ⟨hv, he⟩ := h
        subst hv he
        exact resultInDomain_bool a b _ hn
      | true =>
        cases hy : ConvertToBool b with
        | error p => simp [hx, hy] at h
        | ok y =>
          simp only [hx, hy, Bool.false_eq_true, if_false, Except.ok.injEq,
            Prod.mk.injEq] at h
          obtain ⟨hv, he⟩ := h
          subst hv he
          exact resultInDomain_bool a b _ hn

theorem LogicOr_domain (a b v : Value) (err : Option String)
    (h : LogicOr a b = .ok (v, err)) : resultInDomain a b v err := by
  unfold LogicOr at h
  by_cases hn : isNullPair a b = true
  · simp only [hn, if_true, Except.ok.injEq, Prod.mk.injEq] at h
    obtain ⟨hv, he⟩ := h
    subst hv he
    exact resultInDomain_null a b hn
  · simp only [hn] at h
    cases hx : ConvertToBool a with
    | error p => simp [hx] at h
    | ok x =>
      cases x with
      | true =>
        simp only [hx, Bool.false_eq_true, if_false, Except.ok.injEq, Prod.mk.injEq] at h
        obtain ⟨hv, he⟩ := h
        subst hv he
        exact resultInDomain_bool a b _ hn
      | false =>
        cases hy : ConvertToBool b with
        | error p => simp [hx, hy] at h
        | ok y =>
          simp only [hx, hy, Bool.false_eq_true, if_false, Except.ok.injEq,
            Prod.mk.injEq] at h
          obtain ⟨hv, he⟩ := h
          subst hv he
          exact resultInDomain_bool a b _ hn

/-- C18. Result domain of the operators: whenever one of the nine operators
returns `(v, err)` on operands `a`, `b`, the error is nil, `v` is Null or the
boolean `Int64 0` or `Int64 1`, and `v` is Null if and only if `a` or `b` is
Null. -/
theorem C18_result_domain (L : TypesLib) (a b v : Value) (err : Option String)
    (h : LogicXor a b = .ok (v, err) ∨ LogicAnd a b = .ok (v, err) ∨
      LogicOr a b = .ok (v, err) ∨ Gt L a b = .ok (v, err) ∨ Lt L a b = .ok (v, err) ∨
      Ne L a b = .ok (v, err) ∨ Eq L a b = .ok (v, err) ∨ Ge L a b = .ok (v, err) ∨
      Le L a b = .ok (v, err)) :
    err = none ∧ (v = .null ∨ v = .int64 0 ∨ v = .int64 1) ∧
      (v = .null ↔ (a.Kind = .KindNull ∨ b.Kind = .KindNull)) := by
  rcases h with h | h | h | h | h | h | h | h | h
  · exact LogicXor_domain a b v err h
  · exact LogicAnd_domain a b v err h
  · exact LogicOr_domain a b v err h
  · exact relational_domain _ L a b v err h
  · exact relational_domain _ L a b v err h
  · exact relational_domain _ L a b v err h
  · exact relational_domain _ L a b v err h
  · exact relational_domain _ L a b v err h
  · exact relational_domain _ L a b v err h

/-- Witness of C18 at `GT(Int64 2, Int64 1)` with `demoLib`, which returns
`Int64 1`. -/
theorem C18_result_domain_witness :
    (none : Option String) = none ∧
      ((Value.int64 1) = .null ∨ (Value.int64 1) = .int64 0 ∨ (Value.int64 1) = .int64 1) ∧
      ((Value.int64 1) = .null ↔
        ((Value.int64 2).Kind = .KindNull ∨ (Value.int64 1).Kind = .KindNull)) :=
  C18_result_domain demoLib (.int64 2) (.int64 1) (.int64 1) none
    (Or.inr (Or.inr (Or.inr (Or.inl (by decide)))))

/-- C19. Consistency of the relational operators: for non-Null operands on
which `compare` returns, the six operators return booleans `lt`, `eq`, `gt`,
`ne`, `ge`, `le` such that exactly one of `lt`, `eq`, `gt` is true, `ne` is the
negation of `eq`, `ge` the negation of `lt` and `le` the negation of `gt`. -/
theorem C19_relational_consistency (L : TypesLib) (a b : Value) (r : GoInt)
    (hna : a.Kind ≠ .KindNull) (hnb : b.Kind ≠ .KindNull)
    (hr : compare L a b = .ok r) :
    ∃ lt eq gt ne ge le : Bool,
      Lt L a b = .ok (SetValue lt, none) ∧ Eq L a b = .ok (SetValue eq, none) ∧
      Gt L a b = .ok (SetValue gt, none) ∧ Ne L a b = .ok (SetValue ne, none) ∧
      Ge L a b = .ok (SetValue ge, none) ∧ Le L a b = .ok (SetValue le, none) ∧
      ((lt = true ∧ eq = false ∧ gt = false) ∨ (lt = false ∧ eq = true ∧ gt = false) ∨
        (lt = false ∧ eq = false ∧ gt = true)) ∧
      ne = !eq ∧ ge = !lt ∧ le = !gt := by
  refine ⟨decide (r.val < 0), decide (r.val = 0), decide (r.val > 0), decide (r.val ≠ 0),
    decide (r.val ≥ 0), decide (r.val ≤ 0), ?_, ?_, ?_, ?_, ?_, ?_, ?_, ?_, ?_, ?_⟩
  · simp [Lt, relational, isNullPair, hna, hnb, hr]
  · simp [Eq, relational, isNullPair, hna, hnb, hr]
  · simp [Gt, relational, isNullPair, hna, hnb, hr]
  · simp [Ne, relational, isNullPair, hna, hnb, hr]
  · simp [Ge, relational, isNullPair, hna, hnb, hr]
  · simp [Le, relational, isNullPair, hna, hnb, hr]
  · simp only [decide_eq_true_eq, decide_eq_false_iff_not]
    omega
  · simp
  · rw [Bool.eq_iff_iff]
    simp only [decide_eq_true_eq, Bool.not_eq_true', decide_eq_false_iff_not]
    omega
  · rw [Bool.eq_iff_iff]
    simp only [decide_eq_true_eq, Bool.not_eq_true', decide_eq_false_iff_not]
    omega

/-- Witness of C19 at `a = String "a"`, `b = Float64 1` with `demoLib`, where
`compare` returns `-1` by the fallback. -/
theorem C19_relational_consistency_witness :
    ∃ lt eq gt ne ge le : Bool,
      Lt demoLib (.string "a") (.float64 (.fin 1 0)) = .ok (SetValue lt, none) ∧
      Eq demoLib (.string "a") (.float64 (.fin 1 0)) = .ok (SetValue eq, none) ∧
      Gt demoLib (.string "a") (.float64 (.fin 1 0)) = .ok (SetValue gt, none) ∧
      Ne demoLib (.string "a") (.float64 (.fin 1 0)) = .ok (SetValue ne, none) ∧
      Ge demoLib (.string "a") (.float64 (.fin 1 0)) = .ok (SetValue ge, none) ∧
      Le demoLib (.string "a") (.float64 (.fin 1 0)) = .ok (SetValue le, none) ∧
      ((lt = true ∧ eq = false ∧ gt = false) ∨ (lt = false ∧ eq = true ∧ gt = false) ∨
        (lt = false ∧ eq = false ∧ gt = true)) ∧
      ne = !eq ∧ ge = !lt ∧ le = !gt :=
  C19_relational_consistency demoLib (.string "a") (.float64 (.fin 1 0)) (GoInt.ofInt (-1))
    (by decide) (by decide) (by decide)

/-- C20. Commutativity of the logical connectives: for operands `a`, `b` whose
kinds are among Null, Int64, UInt64, Float32, Float64, String, Decimal, each of
AND, OR, XOR gives the same result on `(a, b)` and on `(b, a)`, Null operands
included. -/
theorem C20_logic_commutative (a b : Value)
    (ha : a.Kind ∈ truthinessKinds) (hb : b.Kind ∈ truthinessKinds) :
    LogicAnd a b = LogicAnd b a ∧ LogicOr a b = LogicOr b a ∧
      LogicXor a b = LogicXor b a := by
  obtain ⟨x, hx⟩ := ConvertToBool_ok_of_kind a ha
  obtain ⟨y, hy⟩ := ConvertToBool_ok_of_kind b hb
  have hsym : isNullPair b a = isNullPair a b := by
    simp [isNullPair, Bool.or_comm]
  refine ⟨?_, ?_, ?_⟩
  · cases x <;> cases y <;> simp [LogicAnd, hsym, hx, hy]
  · cases x <;> cases y <;> simp [LogicOr, hsym, hx, hy]
  · cases x <;> cases y <;> simp [LogicXor, hsym, hx, hy]

/-- Witness of C20 at `a = String "1"` and `b = Float64 0.9` (the nearest
double). -/
theorem C20_logic_commutative_witness :
    LogicAnd (.string "1") (.float64 (.fin 8106479329266893 53))
      = LogicAnd (.float64 (.fin 8106479329266893 53)) (.string "1") ∧
    LogicOr (.string "1") (.float64 (.fin 8106479329266893 53))
      = LogicOr (.float64 (.fin 8106479329266893 53)) (.string "1") ∧
    LogicXor (.string "1") (.float64 (.fin 8106479329266893 53))
      = LogicXor (.float64 (.fin 8106479329266893 53)) (.string "1") :=
  C20_logic_commutative (.string "1") (.float64 (.fin 8106479329266893 53))
    (by decide) (by decide)

end Pivot
